import Mathlib

/-!
Formal model of the spec-agents retrieval-augmented QA pipeline.

The definitions below are shallow embeddings of the TypeScript source:
strings are Lean strings (processed as lists of characters), JavaScript
numbers are modelled as exact rationals, and the fixed regular expressions
of the source are implemented as explicit scanners with JavaScript
semantics (word boundaries, greedy repetition, leftmost match).
Math.round is modelled as round-half-up on rationals.
-/

set_option maxRecDepth 4000

/-! ## JavaScript character and string primitives -/

/-- JavaScript whitespace class \s restricted to ASCII: space, tab,
newline, carriage return, vertical tab, form feed. -/
def jsWs (c : Char) : Bool :=
  c = ' ' || c = '\t' || c = '\n' || c = '\r' ||
  c = Char.ofNat 11 || c = Char.ofNat 12

/-- JavaScript word-character class \w: ASCII letters, digits, underscore. -/
def jsWordChar (c : Char) : Bool :=
  ('a' ≤ c && c ≤ 'z') || ('A' ≤ c && c ≤ 'Z') || ('0' ≤ c && c ≤ '9') || c = '_'

/-- JavaScript digit class \d (ASCII digits). -/
def jsDigit (c : Char) : Bool := '0' ≤ c && c ≤ '9'

/-- JavaScript String.prototype.trim on a character list. -/
def trimChars (cs : List Char) : List Char :=
  ((cs.dropWhile jsWs).reverse.dropWhile jsWs).reverse

/-- Lowercase every character (ASCII case mapping, as toLowerCase does on
the ASCII inputs handled here). -/
def lowerChars (cs : List Char) : List Char := cs.map Char.toLower

/-- Uppercase every character (ASCII case mapping). -/
def upperChars (cs : List Char) : List Char := cs.map Char.toUpper

/-- Boolean prefix test on character lists. -/
def listStartsWith : List Char → List Char → Bool
  | [], _ => true
  | _ :: _, [] => false
  | p :: ps, c :: cs => p = c && listStartsWith ps cs

/-- Case-insensitive prefix test on character lists. -/
def listStartsWithCI : List Char → List Char → Bool
  | [], _ => true
  | _ :: _, [] => false
  | p :: ps, c :: cs => p.toLower = c.toLower && listStartsWithCI ps cs

/-- JavaScript String.prototype.includes: substring containment. -/
def containsSub (pat : List Char) : List Char → Bool
  | [] => pat.isEmpty
  | c :: cs => listStartsWith pat (c :: cs) || containsSub pat cs

/-- Case-insensitive substring containment. -/
def containsSubCI (pat : List Char) : List Char → Bool
  | [] => pat.isEmpty
  | c :: cs => listStartsWithCI pat (c :: cs) || containsSubCI pat cs

mutual

/-- Collapse every maximal run of whitespace into a single space character,
the effect of replace(/\s+/g, " "). -/
def collapseWs : List Char → List Char
  | [] => []
  | c :: cs =>
    if jsWs c then ' ' :: collapseWsSkip cs
    else c :: collapseWs cs

/-- Skip the remainder of a whitespace run already replaced by a space. -/
def collapseWsSkip : List Char → List Char
  | [] => []
  | c :: cs =>
    if jsWs c then collapseWsSkip cs
    else c :: collapseWs cs

end

mutual

/-- Split on maximal whitespace runs, the effect of split(/\s+/): a leading
or trailing separator produces an empty fragment, as in JavaScript. -/
def jsSplitWs : List Char → List (List Char)
  | [] => [[]]
  | c :: cs =>
    if jsWs c then [] :: jsSplitWsSkip cs
    else
      match jsSplitWs cs with
      | [] => [[c]]
      | t :: ts => (c :: t) :: ts

/-- Skip the remainder of a whitespace separator run, then continue
splitting. -/
def jsSplitWsSkip : List Char → List (List Char)
  | [] => [[]]
  | c :: cs =>
    if jsWs c then jsSplitWsSkip cs
    else
      match jsSplitWs cs with
      | [] => [[c]]
      | t :: ts => (c :: t) :: ts

end

/-- Split on maximal runs of two or more newline characters, the effect of
split(/\n{2,}/) and of split(/\n\n+/). A single newline stays inside its
fragment; leading or trailing separators produce empty fragments. -/
def splitBlankRuns (cs : List Char) : List (List Char) :=
  go [] [] 0 cs
where
  /-- Accumulate finished fragments, the current fragment (reversed), and a
  count of newlines seen but not yet committed. -/
  go (done : List (List Char)) (cur : List Char) (pending : Nat) :
      List Char → List (List Char)
  | [] =>
    if 2 ≤ pending then (done ++ [cur.reverse, []])
    else done ++ [(List.replicate pending '\n' ++ cur).reverse]
  | c :: cs =>
    if c = '\n' then go done cur (pending + 1) cs
    else if 2 ≤ pending then go (done ++ [cur.reverse]) [c] 0 cs
    else go done (c :: (List.replicate pending '\n' ++ cur)) 0 cs

/-- Rational addition by explicit cross-multiplication; definitionally
reducible, unlike the irreducible Rat.add, and provably equal to it. -/
def qAdd (a b : ℚ) : ℚ := Rat.divInt (a.num * b.den + b.num * a.den) (a.den * b.den)

/-- Rational negation, reducible form. -/
def qNeg (a : ℚ) : ℚ := Rat.divInt (-a.num) a.den

/-- Rational subtraction, reducible form. -/
def qSub (a b : ℚ) : ℚ := Rat.divInt (a.num * b.den - b.num * a.den) (a.den * b.den)

/-- Rational multiplication, reducible form. -/
def qMul (a b : ℚ) : ℚ := Rat.divInt (a.num * b.num) (a.den * b.den)

/-- Rational division, reducible form; division by zero yields zero. -/
def qDiv (a b : ℚ) : ℚ := Rat.divInt (a.num * b.den) (a.den * b.num)

/-- Rational absolute value, reducible form. -/
def qAbs (a : ℚ) : ℚ := if a.num < 0 then qNeg a else a

/-- Power of ten as a rational, reducible form. -/
def pow10 (n : ℕ) : ℚ := ((10 ^ n : ℕ) : ℚ)

/-- Round half up on rationals, the behaviour of Math.round. -/
def jsRound (q : ℚ) : ℤ := Rat.floor (qAdd q (Rat.divInt 1 2))

/-! ## Fuzzy matching (claim-verification.ts) -/

/-- Lowercase, replace every character outside \w and \s by a space,
collapse whitespace runs, trim: the normalizeText helper. -/
def normalizeText (cs : List Char) : List Char :=
  trimChars (collapseWs ((lowerChars cs).map
    (fun c => if jsWordChar c || jsWs c then c else ' ')))

/-- Word-overlap score used for needles longer than 50 characters: the
fraction of deduplicated needle words longer than 2 characters present in
the haystack word set, as a rounded percentage. The 0/0 corner (no needle
word longer than 2 characters), which is NaN in JavaScript, is modelled as
rational 0/0 = 0. -/
def wordBasedMatch (needle haystack : List Char) : ℤ :=
  let needleWords := ((jsSplitWs needle).filter (fun w => 2 < w.length)).dedup
  let haystackWords := jsSplitWs haystack
  let matchCount := (needleWords.filter (fun w => haystackWords.contains w)).length
  jsRound (qMul (qDiv (matchCount : ℚ) (needleWords.length : ℚ)) 100)

/-- One row-update of the Levenshtein dynamic program: given the previous
matrix row (starting at the diagonal entry) and the column characters,
produce the rest of the current row after its first entry. -/
def levRowGo (c : Char) : List Char → Nat → Nat → List Nat → List Nat
  | [], _, _, _ => []
  | y :: ys, diag, left, prev =>
    let up := prev.headD 0
    let cost := if y = c then 0 else 1
    let cur := min (min (up + 1) (left + 1)) (diag + cost)
    cur :: levRowGo c ys up cur prev.tail

/-- Levenshtein distance by the classic dynamic program of the source,
with both inputs capped to their first 200 characters. -/
def levenshteinDistance (a b : List Char) : Nat :=
  let s1 := a.take 200
  let s2 := b.take 200
  let finalRow := s1.foldl
    (fun row c =>
      let diag := row.headD 0
      let first := diag + 1
      first :: levRowGo c s2 diag first row.tail)
    (List.range (s2.length + 1))
  finalRow.getLastD 0

/-- Fuzzy match score 0-100 between a needle and a haystack, translated
from fuzzyMatch: normalize both, return 100 on containment, use word
overlap for needles longer than 50 characters, otherwise a rounded
normalized Levenshtein score floored at 0. -/
def fuzzyMatch (needle haystack : String) : ℤ :=
  let nn := normalizeText needle.data
  let nh := normalizeText haystack.data
  if containsSub nn nh then 100
  else if 50 < nn.length then wordBasedMatch nn nh
  else
    let d := levenshteinDistance nn nh
    max 0 (jsRound (qSub 100 (qMul (qDiv (d : ℚ) (nn.length : ℚ)) 100)))

/-! ## Numeric value extraction (structured-output.ts) -/

/-- Numeric value extracted from text together with its unit and the
matched source fragment. -/
structure ExtractedValue where
  value : ℚ
  unit : String
  original : String
  deriving DecidableEq, Repr

/-- Digits-to-number accumulator. -/
def natOfDigits (ds : List Char) : Nat :=
  ds.foldl (fun n c => n * 10 + (c.toNat - 48)) 0

/-- Decimal value of an integer digit string and an optional fraction
digit string, the result of parseFloat on "int.frac". -/
def decimalValue (intDs fracDs : List Char) : ℚ :=
  qAdd (natOfDigits intDs : ℚ) (qDiv (natOfDigits fracDs : ℚ) (pow10 fracDs.length))

/-- Span of leading ASCII digits. -/
def spanDigits (cs : List Char) : List Char × List Char :=
  (cs.takeWhile jsDigit, cs.dropWhile jsDigit)

/-- Span of leading JavaScript whitespace. -/
def spanWs (cs : List Char) : List Char × List Char :=
  (cs.takeWhile jsWs, cs.dropWhile jsWs)

/-- Consume the comma groups of (?:,\d\x7b3\x7d)*: maximal run of a comma
followed by exactly three digits. Returns the digits collected (commas
dropped, as by replace(/,/g,"")), the consumed length, and the rest. -/
def commaGroups : List Char → List Char × Nat × List Char
  | ',' :: a :: b :: c :: rest =>
    if jsDigit a && jsDigit b && jsDigit c then
      let (ds, n, r) := commaGroups rest
      (a :: b :: c :: ds, n + 4, r)
    else ([], 0, ',' :: a :: b :: c :: rest)
  | cs => ([], 0, cs)

/-- Consume an optional fraction (\.\d+)?: a dot followed by at least one
digit, greedily. Returns the fraction digits, consumed length, rest. -/
def optFraction : List Char → List Char × Nat × List Char
  | '.' :: rest =>
    let (ds, r) := spanDigits rest
    if ds.isEmpty then ([], 0, '.' :: rest) else (ds, ds.length + 1, r)
  | cs => ([], 0, cs)

/-- Match a JavaScript number token \d+(?:,\d\x7b3\x7d)*(?:\.\d+)? at the
head of the input. Returns its parseFloat value (commas removed), the
consumed length and the rest. -/
def matchNumberToken (cs : List Char) : Option (ℚ × Nat × List Char) :=
  let (intDs, r1) := spanDigits cs
  if intDs.isEmpty then none
  else
    let (groupDs, glen, r2) := commaGroups r1
    let (fracDs, flen, r3) := optFraction r2
    some (decimalValue (intDs ++ groupDs) fracDs, intDs.length + glen + flen, r3)

/-- Match one alternative of an ordered, case-insensitive literal
alternation at the head of the input, returning the matched slice. -/
def matchAltCI (alts : List String) (cs : List Char) : Option (String × Nat) :=
  match alts with
  | [] => none
  | a :: rest =>
    if listStartsWithCI a.data cs then some (String.mk (cs.take a.data.length), a.data.length)
    else matchAltCI rest cs

/-- Unit alternation of the first extraction pattern, in source order. -/
def p1Units : List String :=
  ["MPa", "ksi", "psi", "HRC", "HRB", "HBW", "HV", "%", "°C", "°F", "mm", "in", "kJ/m²"]

/-- Unit alternation of the range extraction pattern, in source order. -/
def p3Units : List String := ["MPa", "ksi", "psi", "HRC", "HBW", "%"]

/-- Unit alternation of the fraction extraction pattern, in source order;
the "inch" alternative is shadowed by "in" exactly as in the source regex. -/
def p2Units : List String := ["\"", "in", "inch"]

/-- Match the standard number+unit pattern at the head of the input:
number token, optional whitespace, unit. Returns value, matched unit text,
and total consumed length. -/
def matchP1 (cs : List Char) : Option (ℚ × String × Nat) := do
  let (v, n1, r1) ← matchNumberToken cs
  let (ws, r2) := spanWs r1
  let (u, n3) ← matchAltCI p1Units r2
  return (v, u, n1 + ws.length + n3)

/-- Match the fraction pattern (\d+\/\d+)\s*("|in|inch) at the head of the
input. parseFloat of "a/b" stops at the slash, so the value is the
numerator. -/
def matchP2 (cs : List Char) : Option (ℚ × String × Nat) := do
  let (num, r1) := spanDigits cs
  if num.isEmpty then none
  else match r1 with
    | '/' :: r2 =>
      let (den, r3) := spanDigits r2
      if den.isEmpty then none
      else
        let (ws, r4) := spanWs r3
        let (u, n5) ← matchAltCI p2Units r4
        return ((natOfDigits num : ℚ), u, num.length + 1 + den.length + ws.length + n5)
    | _ => none

/-- Match the range pattern number [-–] number unit at the head of the
input; the extracted value is the first number of the range. -/
def matchP3 (cs : List Char) : Option (ℚ × String × Nat) := do
  let (v, n1, r1) ← matchNumberToken cs
  let (ws1, r2) := spanWs r1
  match r2 with
  | d :: r3 =>
    if d = '-' || d = '–' then do
      let (ws2, r4) := spanWs r3
      let (_, n5, r5) ← matchNumberToken r4
      let (ws3, r6) := spanWs r5
      let (u, n7) ← matchAltCI p3Units r6
      return (v, u, n1 + ws1.length + 1 + ws2.length + n5 + ws3.length + n7)
    else none
  | [] => none

/-- Fuelled scanner loop; every step consumes at least one character, so
fuel equal to the input length always suffices. -/
def scanAllGo (m : List Char → Option (ℚ × String × Nat)) :
    Nat → List Char → List ExtractedValue
  | 0, _ => []
  | _, [] => []
  | fuel + 1, c :: cs =>
    match m (c :: cs) with
    | some (v, u, k) =>
      ⟨v, u, String.mk ((c :: cs).take k)⟩ :: scanAllGo m fuel (cs.drop (k - 1))
    | none => scanAllGo m fuel cs

/-- Scan the whole input with a pattern matcher, collecting leftmost
non-overlapping matches as a global regex exec loop does. -/
def scanAll (m : List Char → Option (ℚ × String × Nat)) (cs : List Char) :
    List ExtractedValue :=
  scanAllGo m cs.length cs

/-- Deduplicate extracted values by their (value, unit) key, keeping first
occurrences, as the seen-set filter of the source does. -/
def dedupByKey : List ExtractedValue → List (ℚ × String) → List ExtractedValue
  | [], _ => []
  | e :: es, seen =>
    if seen.contains (e.value, e.unit) then dedupByKey es seen
    else e :: dedupByKey es ((e.value, e.unit) :: seen)

/-- Extract all numerical values with units from text, translated from
extractNumericalValues: run the three unit patterns over the whole text in
order and deduplicate by value and unit. -/
def extractNumericalValues (text : String) : List ExtractedValue :=
  dedupByKey (scanAll matchP1 text.data ++ scanAll matchP2 text.data ++ scanAll matchP3 text.data) []

/-! ## JSON values and JSON.parse (model) -/

/-- JSON value tree produced by JSON.parse. -/
inductive Json where
  | jnull : Json
  | jbool : Bool → Json
  | jnum : ℚ → Json
  | jstr : String → Json
  | jarr : List Json → Json
  | jobj : List (String × Json) → Json
  deriving Repr

/-- Whitespace accepted between JSON tokens. -/
def jsonSkipWs (cs : List Char) : List Char :=
  cs.dropWhile (fun c => c = ' ' || c = '\t' || c = '\n' || c = '\r')

/-- Hexadecimal digit value. -/
def hexVal (c : Char) : Option Nat :=
  if '0' ≤ c && c ≤ '9' then some (c.toNat - 48)
  else if 'a' ≤ c && c ≤ 'f' then some (c.toNat - 87)
  else if 'A' ≤ c && c ≤ 'F' then some (c.toNat - 55)
  else none

/-- Single-character JSON string escapes. -/
def escChar (c : Char) : Option Char :=
  if c = '"' then some '"'
  else if c = '\\' then some '\\'
  else if c = '/' then some '/'
  else if c = 'b' then some (Char.ofNat 8)
  else if c = 'f' then some (Char.ofNat 12)
  else if c = 'n' then some '\n'
  else if c = 'r' then some '\r'
  else if c = 't' then some '\t'
  else none

/-- Fuelled loop for the body of a JSON string after its opening quote;
every step consumes at least one character, so fuel equal to the input
length always suffices. -/
def parseJsonStrBodyGo : Nat → List Char → Option (String × List Char)
  | 0, _ => none
  | _, [] => none
  | fuel + 1, cs =>
    match cs with
    | '"' :: rest => some ("", rest)
    | '\\' :: 'u' :: a :: b :: c :: d :: rest => do
      let ha ← hexVal a
      let hb ← hexVal b
      let hc ← hexVal c
      let hd ← hexVal d
      let (s, r) ← parseJsonStrBodyGo fuel rest
      return (String.mk (Char.ofNat (((ha * 16 + hb) * 16 + hc) * 16 + hd) :: s.data), r)
    | '\\' :: e :: rest => do
      let ec ← escChar e
      let (s, r) ← parseJsonStrBodyGo fuel rest
      return (String.mk (ec :: s.data), r)
    | c :: rest =>
      if c.toNat < 32 then none
      else do
        let (s, r) ← parseJsonStrBodyGo fuel rest
        return (String.mk (c :: s.data), r)
    | [] => none

/-- Parse the body of a JSON string after its opening quote, returning the
decoded string and the input following the closing quote. -/
def parseJsonStrBody (cs : List Char) : Option (String × List Char) :=
  parseJsonStrBodyGo cs.length cs

/-- Parse a JSON number (sign, integer part without leading zeros,
optional fraction, optional exponent) into an exact rational. -/
def parseJsonNum (cs : List Char) : Option (ℚ × List Char) :=
  let (neg, cs1) := match cs with
    | '-' :: rest => (true, rest)
    | _ => (false, cs)
  let (intDs, cs2) := spanDigits cs1
  if intDs.isEmpty then none
  else if intDs.headD '0' = '0' && 1 < intDs.length then none
  else
    let fracStep : Option (List Char × List Char) := match cs2 with
      | '.' :: r =>
        let (ds, r2) := spanDigits r
        if ds.isEmpty then none else some (ds, r2)
      | _ => some ([], cs2)
    match fracStep with
    | none => none
    | some (fracDs, cs3) =>
      let expStep : Option (ℤ × List Char) := match cs3 with
        | 'e' :: r => parseExpTail r
        | 'E' :: r => parseExpTail r
        | _ => some (0, cs3)
      match expStep with
      | none => none
      | some (e, cs4) =>
        let base := decimalValue intDs fracDs
        let v := if 0 ≤ e then qMul base (pow10 e.toNat) else qDiv base (pow10 (-e).toNat)
        some (if neg then qNeg v else v, cs4)
where
  /-- Exponent tail after e or E: optional sign, at least one digit. -/
  parseExpTail (r : List Char) : Option (ℤ × List Char) :=
    let (esign, r1) := match r with
      | '+' :: r2 => ((1 : ℤ), r2)
      | '-' :: r2 => ((-1 : ℤ), r2)
      | _ => ((1 : ℤ), r)
    let (eds, r2) := spanDigits r1
    if eds.isEmpty then none else some (esign * (natOfDigits eds : ℤ), r2)

mutual

/-- Parse one JSON value; the fuel bounds nesting and is decremented on
every recursive call. -/
def parseJsonVal : Nat → List Char → Option (Json × List Char)
  | 0, _ => none
  | fuel + 1, cs =>
    match jsonSkipWs cs with
    | '{' :: rest =>
      match jsonSkipWs rest with
      | '}' :: rest2 => some (Json.jobj [], rest2)
      | rest2 => parseObjFields fuel rest2 []
    | '[' :: rest =>
      match jsonSkipWs rest with
      | ']' :: rest2 => some (Json.jarr [], rest2)
      | rest2 => parseArrElems fuel rest2 []
    | '"' :: rest => (parseJsonStrBody rest).map (fun p => (Json.jstr p.1, p.2))
    | 't' :: 'r' :: 'u' :: 'e' :: rest => some (Json.jbool true, rest)
    | 'f' :: 'a' :: 'l' :: 's' :: 'e' :: rest => some (Json.jbool false, rest)
    | 'n' :: 'u' :: 'l' :: 'l' :: rest => some (Json.jnull, rest)
    | rest => (parseJsonNum rest).map (fun p => (Json.jnum p.1, p.2))

/-- Parse the members of a JSON object after its opening brace. -/
def parseObjFields : Nat → List Char → List (String × Json) → Option (Json × List Char)
  | 0, _, _ => none
  | fuel + 1, cs, acc =>
    match jsonSkipWs cs with
    | '"' :: rest =>
      match parseJsonStrBody rest with
      | none => none
      | some (key, r1) =>
        match jsonSkipWs r1 with
        | ':' :: r2 =>
          match parseJsonVal fuel r2 with
          | none => none
          | some (v, r3) =>
            match jsonSkipWs r3 with
            | ',' :: r4 => parseObjFields fuel r4 (acc ++ [(key, v)])
            | '}' :: r4 => some (Json.jobj (acc ++ [(key, v)]), r4)
            | _ => none
        | _ => none
    | _ => none

/-- Parse the elements of a JSON array after its opening bracket. -/
def parseArrElems : Nat → List Char → List Json → Option (Json × List Char)
  | 0, _, _ => none
  | fuel + 1, cs, acc =>
    match parseJsonVal fuel cs with
    | none => none
    | some (v, r1) =>
      match jsonSkipWs r1 with
      | ',' :: r2 => parseArrElems fuel r2 (acc ++ [v])
      | ']' :: r2 => some (Json.jarr (acc ++ [v]), r2)
      | _ => none

end

/-- JSON.parse: parse a complete value with nothing but whitespace after
it; any failure is a thrown SyntaxError, modelled as none. -/
def jsonParse (s : String) : Option Json :=
  match parseJsonVal (s.length + 1) s.data with
  | some (v, rest) => if (jsonSkipWs rest).isEmpty then some v else none
  | none => none

/-- Property read on a parsed JSON value: objects yield the value of the
named field (the last occurrence, as later duplicate keys overwrite in
JSON.parse); every other value yields none (undefined). -/
def getField (j : Json) (key : String) : Option Json :=
  match j with
  | Json.jobj fs => fs.reverse.lookup key
  | _ => none

/-- Truthiness test on a JSON value as JavaScript sees it. -/
def jsFalsy : Json → Bool
  | Json.jnull => true
  | Json.jbool b => !b
  | Json.jnum q => q = 0
  | Json.jstr s => s.isEmpty
  | _ => false

/-- Rendering of a rational as by JavaScript number-to-string conversion;
non-integral rationals are rendered as a fraction, an approximation of the
decimal rendering that never affects the properties proved below. -/
def ratToString (q : ℚ) : String :=
  if q.den = 1 then toString q.num else toString q.num ++ "/" ++ toString q.den

mutual

/-- String conversion of a JSON value as by the String() coercion. -/
def jsToString : Json → String
  | Json.jnull => "null"
  | Json.jbool b => cond b "true" "false"
  | Json.jnum q => ratToString q
  | Json.jstr s => s
  | Json.jarr l => String.intercalate "," (jsToStringList l)
  | Json.jobj _ => "[object Object]"

/-- String conversions of a list of JSON values. -/
def jsToStringList : List Json → List String
  | [] => []
  | j :: js => jsToString j :: jsToStringList js

end

/-- parseFloat on a string: skip leading whitespace, optional sign, then
a leading decimal number; none models NaN. Exponent suffixes are not
consumed (they never arise in the inputs modelled here). -/
def parseFloatJS (s : String) : Option ℚ :=
  let cs := s.data.dropWhile jsWs
  let (neg, cs1) := match cs with
    | '-' :: r => (true, r)
    | '+' :: r => (false, r)
    | _ => (false, cs)
  let (intDs, cs2) := spanDigits cs1
  let (fracDs, _, _) := optFraction cs2
  if intDs.isEmpty && fracDs.isEmpty then none
  else
    let v := decimalValue intDs fracDs
    some (if neg then -v else v)

/-! ## Structured output types and response parsing (structured-output.ts) -/

/-- Confidence level of a claim. -/
inductive ConfidenceLevel where
  | high : ConfidenceLevel
  | medium : ConfidenceLevel
  | low : ConfidenceLevel
  deriving DecidableEq, Repr

/-- Whether the answer is document-sourced or from general knowledge. -/
inductive SourceType where
  | documents : SourceType
  | generalKnowledge : SourceType
  deriving DecidableEq, Repr

/-- Numerical value record attached to a claim. -/
structure NumericalValue where
  value : ℚ
  unit : String
  property : String
  deriving DecidableEq, Repr

/-- One factual claim extracted from the response. -/
structure Claim where
  claim : String
  source_ref : String
  exact_quote : String
  confidence : ConfidenceLevel
  numerical_values : Option (List NumericalValue)
  deriving DecidableEq, Repr

/-- Structured response from the LLM. -/
structure StructuredResponse where
  answer : String
  claims : List Claim
  missing_info : Option String
  source_type : SourceType
  deriving DecidableEq, Repr

/-- Parsed response together with parsing metadata. -/
structure ParsedResponse where
  structured : StructuredResponse
  raw : String
  parseSuccess : Bool
  parseError : Option String
  deriving DecidableEq, Repr

/-- First greedy brace block of the text, the match of the first opening
brace up to the last closing brace after it; none when no such block
exists. -/
def findJsonBlock (s : String) : Option String :=
  let cs := s.data
  let pre := cs.takeWhile (fun c => c ≠ '{')
  let fromBrace := cs.drop pre.length
  match fromBrace with
  | [] => none
  | _ :: tailPart =>
    let rev := tailPart.reverse.dropWhile (fun c => c ≠ '}')
    if rev.isEmpty then none else some (String.mk ('{' :: rev.reverse))

/-- Match of the citation pattern \[(\d+)\] at the head of the input,
returning its total length. -/
def matchCitationAt : List Char → Option Nat
  | '[' :: rest =>
    let (ds, r) := spanDigits rest
    if ds.isEmpty then none
    else match r with
      | ']' :: _ => some (ds.length + 2)
      | _ => none
  | _ => none

/-- First citation match in the text, as matched text. -/
def findCitation : List Char → Option String
  | [] => none
  | c :: cs =>
    match matchCitationAt (c :: cs) with
    | some k => some (String.mk ((c :: cs).take k))
    | none => findCitation cs

/-- Fuelled citation removal loop; fuel equal to the input length always
suffices. -/
def removeCitationsGo : Nat → List Char → List Char
  | 0, _ => []
  | _, [] => []
  | fuel + 1, c :: cs =>
    match matchCitationAt (c :: cs) with
    | some k => removeCitationsGo fuel (cs.drop (k - 1))
    | none => c :: removeCitationsGo fuel cs

/-- Remove every citation marker, the effect of replace(/\[\d+\]/g, ""). -/
def removeCitations (cs : List Char) : List Char :=
  removeCitationsGo cs.length cs

/-- Fallback response constructed when JSON parsing fails: paragraphs are
blank-line separated, and each paragraph containing a citation yields one
low-confidence claim with no quote whose text is the first 200 characters
of the trimmed paragraph with citation markers removed. -/
def createFallbackResponse (raw : String) (err : String) : ParsedResponse :=
  let paragraphs := splitBlankRuns raw.data
  let claims := paragraphs.filterMap (fun para =>
    (findCitation para).map (fun cite =>
      { claim := String.mk ((trimChars (removeCitations para)).take 200)
        source_ref := cite
        exact_quote := ""
        confidence := ConfidenceLevel.low
        numerical_values := none }))
  { structured :=
      { answer := raw
        claims := claims
        missing_info := none
        source_type := SourceType.documents }
    raw := raw
    parseSuccess := false
    parseError := some err }

/-- String coercion with a default for falsy values, the pattern
String(x || dflt) applied to a possibly missing field. -/
def strOrDefault (v : Option Json) (dflt : String) : String :=
  match v with
  | none => dflt
  | some x => if jsFalsy x then dflt else jsToString x

/-- Normalize a confidence field: the three literal strings pass through,
anything else becomes medium. -/
def normalizeConfidence (v : Option Json) : ConfidenceLevel :=
  match v with
  | some (Json.jstr s) =>
    if s = "high" then ConfidenceLevel.high
    else if s = "medium" then ConfidenceLevel.medium
    else if s = "low" then ConfidenceLevel.low
    else ConfidenceLevel.medium
  | _ => ConfidenceLevel.medium

/-- JavaScript typeof x === "object" && x !== null, which admits both
objects and arrays. -/
def isObjLike : Json → Bool
  | Json.jobj _ => true
  | Json.jarr _ => true
  | _ => false

/-- Normalize a numerical_values field: non-arrays give none; object-like
entries are coerced fieldwise; an empty result gives none. -/
def normalizeNumericalValues (v : Option Json) : Option (List NumericalValue) :=
  match v with
  | some (Json.jarr vs) =>
    let normalized := (vs.filter isObjLike).map (fun x =>
      { value :=
          match getField x "value" with
          | some (Json.jnum q) => q
          | some other => (parseFloatJS (jsToString other)).getD 0
          | none => 0
        unit := strOrDefault (getField x "unit") ""
        property := strOrDefault (getField x "property") "unknown" : NumericalValue })
    if normalized.isEmpty then none else some normalized
  | _ => none

/-- Normalize a claims array: keep object-like entries, coerce their
fields with defaults, and drop claims whose text is empty. -/
def normalizeClaims (l : List Json) : List Claim :=
  ((l.filter isObjLike).map (fun c =>
    { claim := strOrDefault (getField c "claim") ""
      source_ref := strOrDefault (getField c "source_ref") "[?]"
      exact_quote := strOrDefault (getField c "exact_quote") ""
      confidence := normalizeConfidence (getField c "confidence")
      numerical_values := normalizeNumericalValues (getField c "numerical_values") : Claim })
  ).filter (fun c => 0 < c.claim.length)

/-- Source type field check for the literal string general_knowledge. -/
def isGeneralKnowledgeField (v : Option Json) : Bool :=
  match v with
  | some (Json.jstr s) => s = "general_knowledge"
  | _ => false

/-- Parse a raw LLM response into the structured format, translated from
parseStructuredResponse: extract the first greedy brace block, parse it as
JSON, validate the answer field, normalize the rest; on any failure build
the citation-based fallback response. -/
def parseStructuredResponse (raw : String) : ParsedResponse :=
  match findJsonBlock raw with
  | none => createFallbackResponse raw "No JSON object found in response"
  | some block =>
    match jsonParse block with
    | none => createFallbackResponse raw "JSON parse error"
    | some j =>
      match getField j "answer" with
      | some (Json.jstr a) =>
        if a.isEmpty then createFallbackResponse raw "Missing or invalid answer field"
        else
          { structured :=
              { answer := a
                claims :=
                  match getField j "claims" with
                  | some (Json.jarr l) => normalizeClaims l
                  | _ => []
                missing_info :=
                  match getField j "missing_info" with
                  | some (Json.jstr s) => if s.isEmpty then none else some s
                  | _ => none
                source_type :=
                  if isGeneralKnowledgeField (getField j "source_type")
                  then SourceType.generalKnowledge else SourceType.documents }
            raw := raw
            parseSuccess := true
            parseError := none }
      | _ => createFallbackResponse raw "Missing or invalid answer field"

/-! ## Claim verification (claim-verification.ts) -/

/-- Source chunk available for verification. -/
structure SourceChunk where
  ref : String
  content : String
  document : Option String
  page : Option Nat
  deriving DecidableEq, Repr

/-- Result of verifying a single claim. -/
structure ClaimVerificationResult where
  claim : String
  source_ref : String
  verified : Bool
  quote_match_score : ℤ
  numbers_verified : Bool
  claim_numbers : List ℚ
  source_numbers : List ℚ
  source_text : String
  discrepancy : Option String
  deriving DecidableEq, Repr

/-- Aggregate verification statistics. -/
structure VerificationStats where
  total_claims : Nat
  verified_claims : Nat
  failed_claims : Nat
  verification_rate : ℚ
  numbers_checked : Nat
  numbers_verified : Nat
  deriving DecidableEq, Repr

/-- Overall verification result for a response. -/
structure VerificationResult where
  claims : List ClaimVerificationResult
  stats : VerificationStats
  passed : Bool
  confidence : ℤ
  warnings : List String
  deriving DecidableEq, Repr

/-- Insert into a JavaScript Map modelled as an association list: an
existing key keeps its position and gets the new value, a new key is
appended. -/
def mapSet (m : List (String × SourceChunk)) (k : String) (v : SourceChunk) :
    List (String × SourceChunk) :=
  if m.any (fun p => p.1 = k) then m.map (fun p => if p.1 = k then (k, v) else p)
  else m ++ [(k, v)]

/-- Build the source lookup map binding both the positional "[n]" key and
the ref field of every source to its chunk. -/
def buildSourceMap (sources : List SourceChunk) : List (String × SourceChunk) :=
  sources.enum.foldl
    (fun m p => mapSet (mapSet m ("[" ++ toString (p.1 + 1) ++ "]") p.2) p.2.ref p.2)
    []

/-- Numbers extracted from text, values only. -/
def extractNumbersFromText (text : String) : List ℚ :=
  (extractNumericalValues text).map (fun e => e.value)

/-- Every claim number has a source number within strict 0.01 absolute
tolerance; vacuously true with no claim numbers. -/
def verifyNumbers (claimNumbers sourceNumbers : List ℚ) : Bool :=
  claimNumbers.all (fun cn => sourceNumbers.any (fun sn => qAbs (qSub cn sn) < Rat.divInt 1 100))

/-- Join a list of strings with a separator. -/
def joinSep (sep : String) (parts : List String) : String :=
  String.intercalate sep parts

/-- Verify a single claim against the source map, translated from
verifyClaimAgainstSource. -/
def verifyClaimAgainstSource (claim : Claim)
    (sourceMap : List (String × SourceChunk)) : ClaimVerificationResult :=
  match sourceMap.lookup claim.source_ref with
  | none =>
    { claim := claim.claim
      source_ref := claim.source_ref
      verified := false
      quote_match_score := 0
      numbers_verified := false
      claim_numbers := extractNumbersFromText claim.claim
      source_numbers := []
      source_text := ""
      discrepancy := some ("Source reference " ++ claim.source_ref ++ " not found") }
  | some source =>
    let quoteMatchScore := if claim.exact_quote.isEmpty then 0
      else fuzzyMatch claim.exact_quote source.content
    let claimNumbers := extractNumbersFromText claim.claim
    let sourceNumbers := extractNumbersFromText source.content
    let numbersVerified := verifyNumbers claimNumbers sourceNumbers
    let verified :=
      (60 ≤ quoteMatchScore || claim.exact_quote.length = 0) &&
      (claimNumbers.isEmpty || numbersVerified)
    let discrepancy :=
      if verified then none
      else
        let issues :=
          (if quoteMatchScore < 60 && 0 < claim.exact_quote.length then
            ["Quote match score " ++ toString quoteMatchScore ++ "% below threshold (60%)"]
          else []) ++
          (if !claimNumbers.isEmpty && !numbersVerified then
            let missing := claimNumbers.filter
              (fun n => !sourceNumbers.any (fun sn => qAbs (qSub n sn) < Rat.divInt 1 100))
            ["Numbers not found in source: " ++ joinSep ", " (missing.map ratToString)]
          else [])
        some (joinSep "; " issues)
    { claim := claim.claim
      source_ref := claim.source_ref
      verified := verified
      quote_match_score := quoteMatchScore
      numbers_verified := numbersVerified
      claim_numbers := claimNumbers
      source_numbers := sourceNumbers
      source_text := source.content.take 300
      discrepancy := discrepancy }

/-- Verify all claims of a structured response against the sources,
translated from verifyClaims: per-claim verification, aggregate rates,
weighted confidence (60% claims, 40% numbers), rounded confidence, and
the passed flag computed from the unrounded confidence. -/
def verifyClaims (response : StructuredResponse) (sources : List SourceChunk) :
    VerificationResult :=
  let sourceMap := buildSourceMap sources
  let results := response.claims.map (fun c => verifyClaimAgainstSource c sourceMap)
  let verifiedClaims := results.filter (fun r => r.verified)
  let failedClaims := results.filter (fun r => !r.verified)
  let totalNumbers : Nat := results.foldl (fun sum r => sum + r.claim_numbers.length) 0
  let verifiedNumbers : Nat := results.foldl
    (fun sum r => sum + (if r.numbers_verified then r.claim_numbers.length else 0)) 0
  let numericalFails := failedClaims.filter (fun r => 0 < r.claim_numbers.length)
  let warnings :=
    (if 0 < failedClaims.length && 0 < numericalFails.length then
      [toString numericalFails.length ++ " claims with numerical values could not be verified"]
    else []) ++
    (let lowConf := response.claims.filter (fun c => c.confidence = ConfidenceLevel.low)
     if 0 < lowConf.length then
       [toString lowConf.length ++ " claims have low confidence"]
     else [])
  let verificationRate : ℚ :=
    if 0 < results.length then qMul (qDiv (verifiedClaims.length : ℚ) (results.length : ℚ)) 100 else 100
  let numberVerificationRate : ℚ :=
    if 0 < totalNumbers then qMul (qDiv (verifiedNumbers : ℚ) (totalNumbers : ℚ)) 100 else 100
  let confidence : ℚ := qAdd (qMul verificationRate (Rat.divInt 6 10)) (qMul numberVerificationRate (Rat.divInt 4 10))
  { claims := results
    stats :=
      { total_claims := results.length
        verified_claims := verifiedClaims.length
        failed_claims := failedClaims.length
        verification_rate := verificationRate
        numbers_checked := totalNumbers
        numbers_verified := verifiedNumbers }
    passed := 70 ≤ confidence && numericalFails.length = 0
    confidence := jsRound confidence
    warnings := warnings }

/-! ## Guardrails (claim-verification.ts) -/

/-- Guardrail action on a verified response. -/
inductive GuardrailAction where
  | returnResponse : GuardrailAction
  | regenerate : GuardrailAction
  | refuse : GuardrailAction
  deriving DecidableEq, Repr

/-- Guardrail decision with its reason. -/
structure GuardrailDecision where
  action : GuardrailAction
  reason : String
  deriving DecidableEq, Repr

/-- Apply guardrails to a verification result, translated from
applyGuardrails: refuse a document-sourced response with no claims,
handle failed numerical claims by severity, then gate on confidence with
thresholds 90, 70 and 50. -/
def applyGuardrails (verification : VerificationResult)
    (response : StructuredResponse) : GuardrailDecision :=
  if verification.stats.total_claims = 0 && response.source_type = SourceType.documents then
    { action := GuardrailAction.refuse
      reason := "No verifiable claims found in response" }
  else
    let numericalFailures := verification.claims.filter
      (fun c => !c.verified && 0 < c.claim_numbers.length)
    if 0 < numericalFailures.length then
      let totalNumerical := (verification.claims.filter
        (fun c => 0 < c.claim_numbers.length)).length
      if qDiv (totalNumerical : ℚ) 2 < (numericalFailures.length : ℚ) then
        { action := GuardrailAction.refuse
          reason := toString numericalFailures.length ++ " of " ++ toString totalNumerical ++
            " numerical claims could not be verified" }
      else
        { action := GuardrailAction.regenerate
          reason := toString numericalFailures.length ++ " numerical claims failed verification" }
    else if 90 ≤ verification.confidence then
      { action := GuardrailAction.returnResponse
        reason := "High confidence response" }
    else if 70 ≤ verification.confidence then
      { action := GuardrailAction.returnResponse
        reason := "Acceptable confidence with warnings" }
    else if 50 ≤ verification.confidence then
      { action := GuardrailAction.regenerate
        reason := "Confidence " ++ toString verification.confidence ++ "% below threshold (70%)" }
    else
      { action := GuardrailAction.refuse
        reason := "Confidence " ++ toString verification.confidence ++ "% too low" }

/-! ## Query preprocessing (query-preprocessor.ts) -/

/-- ASCII letter test ([A-Z] under the i flag). -/
def isAsciiLetter (c : Char) : Bool :=
  ('a' ≤ c.toLower) && (c.toLower ≤ 'z')

/-- Word boundary to the left of a match beginning with a word character:
there is no previous character or it is not a word character. -/
def wordBoundaryLeft (prev : Option Char) : Bool :=
  match prev with
  | none => true
  | some c => !jsWordChar c

/-- Word boundary to the right of a match ending in a word character: the
input is exhausted or continues with a non-word character. -/
def wordBoundaryAfter (l : List Char) : Bool :=
  match l.headD '_' with
  | c => if l.isEmpty then true else !jsWordChar c

/-- Match the UNS pattern one of S N C G H J K W R T followed by exactly
five digits, between word boundaries, at the head of the input. -/
def matchUNSAt (prev : Option Char) (cs : List Char) : Option Nat :=
  if !wordBoundaryLeft prev then none
  else match cs with
    | c :: rest =>
      if "sncghjkwrt".data.contains c.toLower then
        let ds := rest.take 5
        if ds.length = 5 && ds.all jsDigit && wordBoundaryAfter (rest.drop 5) then some 6
        else none
      else none
    | [] => none

/-- Match the ASTM core A + 3-4 digits with an optional slash-or-dash year
of 2-4 digits, with a trailing word boundary, trying longer digit runs
first as the greedy regex does. -/
def matchASTMCore (cs : List Char) : Option Nat :=
  match cs with
  | a :: rest =>
    if a.toLower = 'a' then tryDigits rest 4 <|> tryDigits rest 3 else none
  | [] => none
where
  /-- Optional suffix of a slash or dash and 2-4 digits, longer digit runs
  first, each candidate checked for the trailing word boundary. -/
  trySuffix (l : List Char) : Option Nat :=
    match l with
    | d :: r2 =>
      if d = '/' || d = '-' then
        trySufDigits r2 4 <|> trySufDigits r2 3 <|> trySufDigits r2 2
      else none
    | [] => none
  trySufDigits (r2 : List Char) (k : Nat) : Option Nat :=
    let ds := r2.take k
    if ds.length = k && ds.all jsDigit && wordBoundaryAfter (r2.drop k) then some (1 + k)
    else none
  tryDigits (rest : List Char) (k : Nat) : Option Nat :=
    let ds := rest.take k
    if ds.length = k && ds.all jsDigit then
      let after := rest.drop k
      match trySuffix after with
      | some s => some (1 + k + s)
      | none => if wordBoundaryAfter after then some (1 + k) else none
    else none

/-- Match the full ASTM pattern with its optional leading ASTM marker and
optional whitespace, preferring the marker as the greedy regex does. -/
def matchASTMAt (prev : Option Char) (cs : List Char) : Option Nat :=
  if !wordBoundaryLeft prev then none
  else
    (if listStartsWithCI "astm".data cs then
      let rest := cs.drop 4
      let ws := rest.takeWhile jsWs
      (matchASTMCore (rest.drop ws.length)).map (fun k => 4 + ws.length + k)
    else none) <|> matchASTMCore cs

/-- Match the optional T, L or CT suffix of the API pattern followed by a
word boundary, alternatives in source order, absence last. -/
def apiTrySuffix (l : List Char) : Option Nat :=
  if listStartsWithCI "t".data l && wordBoundaryAfter (l.drop 1) then some 1
  else if listStartsWithCI "l".data l && wordBoundaryAfter (l.drop 1) then some 1
  else if listStartsWithCI "ct".data l && wordBoundaryAfter (l.drop 2) then some 2
  else if wordBoundaryAfter l then some 0
  else none

/-- Match up to two letters then the optional suffix of the API pattern,
longer letter runs first as the greedy regex does. -/
def apiTryLetters (l : List Char) : Option Nat :=
  tryCount 2 <|> tryCount 1 <|> tryCount 0
where
  tryCount (n : Nat) : Option Nat :=
    let ls := l.take n
    if ls.length = n && ls.all isAsciiLetter then
      (apiTrySuffix (l.drop n)).map (fun s => n + s)
    else none

/-- Match the API core of 1-2 digits, up to 2 letters and an optional
T, L or CT suffix with a trailing word boundary. -/
def matchAPICore (cs : List Char) : Option Nat :=
  tryDigits 2 <|> tryDigits 1
where
  tryDigits (d : Nat) : Option Nat :=
    let ds := cs.take d
    if ds.length = d && ds.all jsDigit then
      (apiTryLetters (cs.drop d)).map (fun k => d + k)
    else none

/-- Match the full API pattern with its optional leading API marker and
mandatory whitespace after the marker. -/
def matchAPIAt (prev : Option Char) (cs : List Char) : Option Nat :=
  if !wordBoundaryLeft prev then none
  else
    (if listStartsWithCI "api".data cs then
      let rest := cs.drop 3
      let ws := rest.takeWhile jsWs
      if ws.isEmpty then none
      else (matchAPICore (rest.drop ws.length)).map (fun k => 3 + ws.length + k)
    else none) <|> matchAPICore cs

/-- Grade alternation of the source in alternation order, with the
optional L suffix expanded greedily. -/
def gradeAlternatives : List String :=
  ["2205", "2507", "2304", "2101", "316L", "316", "304L", "304",
   "317L", "317", "321", "347", "410", "420", "430", "446"]

/-- Match a grade alias between word boundaries at the head of the input,
alternatives in order, skipping an alternative whose trailing word
boundary fails. -/
def matchGradeAt (prev : Option Char) (cs : List Char) : Option Nat :=
  if !wordBoundaryLeft prev then none
  else go gradeAlternatives
where
  go : List String → Option Nat
    | [] => none
    | a :: rest =>
      if listStartsWithCI a.data cs && wordBoundaryAfter (cs.drop a.data.length) then
        some a.data.length
      else go rest

/-- Match the optional /ISO nnn suffix of the NACE pattern followed by a
word boundary, absence last. -/
def naceTrySuffix (l : List Char) : Option Nat :=
  (match l with
    | '/' :: r =>
      if listStartsWithCI "iso".data r then
        let r2 := r.drop 3
        let ws := r2.takeWhile jsWs
        let ds := (r2.drop ws.length).takeWhile jsDigit
        if !ds.isEmpty && wordBoundaryAfter (r2.drop (ws.length + ds.length)) then
          some (4 + ws.length + ds.length)
        else none
      else none
    | _ => none) <|> (if wordBoundaryAfter l then some 0 else none)

/-- Match the NACE pattern optional NACE marker, MR, four digits and an
optional ISO suffix between word boundaries. -/
def matchNACEAt (prev : Option Char) (cs : List Char) : Option Nat :=
  if !wordBoundaryLeft prev then none
  else
    (if listStartsWithCI "nace".data cs then
      let rest := cs.drop 4
      let ws := rest.takeWhile jsWs
      (core (rest.drop ws.length)).map (fun k => 4 + ws.length + k)
    else none) <|> core cs
where
  core (l : List Char) : Option Nat :=
    if listStartsWithCI "mr".data l then
      let ds := (l.drop 2).take 4
      if ds.length = 4 && ds.all jsDigit then
        (naceTrySuffix (l.drop 6)).map (fun s => 6 + s)
      else none
    else none

/-- Match the standalone ISO 15156 pattern with an optional -n suffix
between word boundaries. -/
def matchISOAt (prev : Option Char) (cs : List Char) : Option Nat :=
  if !wordBoundaryLeft prev then none
  else if listStartsWithCI "iso".data cs then
    let rest := cs.drop 3
    let ws := rest.takeWhile jsWs
    let body := rest.drop ws.length
    if listStartsWith "15156".data body then
      let after := body.drop 5
      let suffix : Option Nat :=
        (match after with
          | '-' :: r =>
            let ds := r.takeWhile jsDigit
            if !ds.isEmpty && wordBoundaryAfter (r.drop ds.length) then some (1 + ds.length)
            else none
          | _ => none) <|> (if wordBoundaryAfter after then some 0 else none)
      suffix.map (fun s => 3 + ws.length + 5 + s)
    else none
  else none

/-- Leftmost match of a boundary-aware pattern matcher, returning the
matched slice; the previous character is threaded for the left word
boundary. -/
def firstMatchGo (m : Option Char → List Char → Option Nat) (prev : Option Char) :
    List Char → Option (List Char)
  | [] => none
  | c :: cs =>
    match m prev (c :: cs) with
    | some k => some ((c :: cs).take k)
    | none => firstMatchGo m (some c) cs

/-- Leftmost match of a pattern over the whole input. -/
def firstMatch (m : Option Char → List Char → Option Nat) (cs : List Char) :
    Option (List Char) :=
  firstMatchGo m none cs

/-- Property keywords that trigger exact-match boosting. -/
def propertyKeywords : List String :=
  ["yield", "tensile", "elongation", "hardness", "hrc", "hbw", "hvn", "pren",
   "charpy", "impact", "ksi", "mpa", "ferrite", "austenite", "annealing",
   "solution", "quench", "temper"]

/-- Technical codes extracted from a query, first match per category,
uppercased. -/
structure ExtractedCodes where
  uns : Option String
  astm : Option String
  api : Option String
  grade : Option String
  nace : Option String
  deriving DecidableEq, Repr

/-- Processed query; the BM25 keyword list of the source is a projection
not needed by the properties proved here and is omitted. -/
structure ProcessedQuery where
  original : String
  semanticQuery : String
  extractedCodes : ExtractedCodes
  boostExactMatch : Bool
  deriving DecidableEq, Repr

/-- Preprocess a query, translated from preprocessQuery: trim, run the
five code patterns, check the property keywords case-insensitively, and
set boostExactMatch from the UNS, ASTM, grade and NACE matches and the
keywords (API matches do not participate, as in the source). -/
def preprocessQuery (query : String) : ProcessedQuery :=
  let original := String.mk (trimChars query.data)
  let cs := original.data
  let uns := firstMatch matchUNSAt cs
  let astm := firstMatch matchASTMAt cs
  let api := firstMatch matchAPIAt cs
  let grade := firstMatch matchGradeAt cs
  let nace := (firstMatch matchNACEAt cs).orElse (fun _ => firstMatch matchISOAt cs)
  let hasExactCodes := uns.isSome || astm.isSome || grade.isSome || nace.isSome
  let upperQuery := upperChars cs
  let hasPropertyKeywords := propertyKeywords.any
    (fun k => containsSub (upperChars k.data) upperQuery)
  { original := original
    semanticQuery := original
    extractedCodes :=
      { uns := uns.map (fun m => String.mk (upperChars m))
        astm := astm.map (fun m => String.mk (upperChars m))
        api := api.map (fun m => String.mk (upperChars m))
        grade := grade.map (fun m => String.mk (upperChars m))
        nace := nace.map (fun m => String.mk (upperChars m)) }
    boostExactMatch := hasExactCodes || hasPropertyKeywords }

/-- BM25 and vector weights for hybrid search. -/
structure SearchWeights where
  bm25Weight : ℚ
  vectorWeight : ℚ
  deriving DecidableEq, Repr

/-- Search weights from a processed query, translated from
getSearchWeights: two or more code categories favour BM25, one category
or an exact-match boost balances, otherwise vector search dominates. -/
def getSearchWeights (query : ProcessedQuery) : SearchWeights :=
  let codeCount :=
    [query.extractedCodes.uns, query.extractedCodes.astm, query.extractedCodes.api,
     query.extractedCodes.grade, query.extractedCodes.nace].countP Option.isSome
  if 2 ≤ codeCount then { bm25Weight := Rat.divInt 6 10, vectorWeight := Rat.divInt 4 10 }
  else if codeCount = 1 || query.boostExactMatch then
    { bm25Weight := Rat.divInt 5 10, vectorWeight := Rat.divInt 5 10 }
  else { bm25Weight := Rat.divInt 3 10, vectorWeight := Rat.divInt 7 10 }

/-! ## Re-ranking (reranker.ts) -/

/-- Candidate chunk from hybrid search. -/
structure HybridSearchResult where
  id : ℤ
  document_id : ℤ
  content : String
  page_number : ℤ
  similarity : ℚ
  bm25_score : ℚ
  vector_score : ℚ
  combined_score : ℚ
  deriving DecidableEq, Repr

/-- Chunk with its relevance score and justification. The TypeScript
interface declares both as number and string, but the LLM scorer copies
whatever values the parsed response held, so the runtime values can be
any JSON value; both fields are therefore modelled as JSON values. -/
structure RankedChunk where
  chunk : HybridSearchResult
  relevance_score : Json
  relevance_reason : Json
  deriving Repr

/-- Re-rank candidates, translated from rerankChunks: when there are at
most topK candidates they are all returned with the placeholder score 8
and no scoring path runs; otherwise the scoring path (the external
cross-encoder or the LLM fallback) produces the result. -/
def rerankChunks (chunks : List HybridSearchResult) (topK : Nat)
    (scoringPath : List HybridSearchResult → Nat → List RankedChunk) :
    List RankedChunk :=
  if chunks.length ≤ topK then
    chunks.map (fun chunk =>
      { chunk := chunk, relevance_score := Json.jnum 8,
        relevance_reason := Json.jstr "Only candidate from search" })
  else scoringPath chunks topK

/-- Fuelled loop removing occurrences of three backticks followed by json
and an optional newline; fuel equal to the input length always suffices. -/
def stripTicksJsonGo : Nat → List Char → List Char
  | 0, _ => []
  | _, [] => []
  | fuel + 1, c :: cs =>
    if listStartsWith "```json\n".data (c :: cs) then stripTicksJsonGo fuel (cs.drop 7)
    else if listStartsWith "```json".data (c :: cs) then stripTicksJsonGo fuel (cs.drop 6)
    else c :: stripTicksJsonGo fuel cs

/-- Remove every occurrence of three backticks followed by json and an
optional newline, the effect of the first markdown cleanup replace. -/
def stripTicksJson (cs : List Char) : List Char :=
  stripTicksJsonGo cs.length cs

/-- Fuelled loop removing occurrences of three backticks with an optional
newline; fuel equal to the input length always suffices. -/
def stripTicksGo : Nat → List Char → List Char
  | 0, _ => []
  | _, [] => []
  | fuel + 1, c :: cs =>
    if listStartsWith "```\n".data (c :: cs) then stripTicksGo fuel (cs.drop 3)
    else if listStartsWith "```".data (c :: cs) then stripTicksGo fuel (cs.drop 2)
    else c :: stripTicksGo fuel cs

/-- Remove every occurrence of three backticks followed by an optional
newline, the effect of the second markdown cleanup replace. -/
def stripTicks (cs : List Char) : List Char :=
  stripTicksGo cs.length cs

/-- Clean an LLM response before JSON parsing: trim, and when the text
starts with a code fence remove the fence markers. -/
def cleanLlmText (text : String) : String :=
  let t := trimChars text.data
  if listStartsWith "```".data t then String.mk (stripTicks (stripTicksJson t))
  else String.mk t

/-- Take the first topK chunks in original search order with the default
score 7, the degraded result shared by every fallback branch. -/
def fallbackRanked (chunks : List HybridSearchResult) (topK : Nat) (reason : String) :
    List RankedChunk :=
  (chunks.take topK).map (fun chunk =>
    { chunk := chunk, relevance_score := Json.jnum 7,
      relevance_reason := Json.jstr reason })

mutual

/-- Element rendering used by Array.prototype.join (and hence by the
ToPrimitive string of an array): null renders as the empty string, unlike
the String() coercion. -/
def jsArrStr : Json → String
  | Json.jnull => ""
  | Json.jbool b => cond b "true" "false"
  | Json.jnum q => ratToString q
  | Json.jstr s => s
  | Json.jarr l => String.intercalate "," (jsArrStrList l)
  | Json.jobj _ => "[object Object]"

/-- Element renderings of a list of JSON values for a join. -/
def jsArrStrList : List Json → List String
  | [] => []
  | j :: js => jsArrStr j :: jsArrStrList js

end

/-- StringToNumber of the language specification restricted to decimal
literals: trim whitespace, empty means 0, otherwise an optional sign, a
decimal significand and an optional exponent spanning the whole string;
none models NaN. The Infinity, hexadecimal, octal and binary literal
forms never arise from the inputs modelled here and map to none. -/
def stringToNumberJS (s : String) : Option ℚ :=
  let cs := trimChars s.data
  match cs with
  | [] => some 0
  | _ =>
    let (neg, cs1) := match cs with
      | '-' :: r => (true, r)
      | '+' :: r => (false, r)
      | _ => (false, cs)
    let (intDs, cs2) := spanDigits cs1
    let (fracDs, cs3) := match cs2 with
      | '.' :: r =>
        let (ds, r2) := spanDigits r
        (ds, r2)
      | _ => ([], cs2)
    if intDs.isEmpty && fracDs.isEmpty then none
    else
      let expStep : Option (ℤ × List Char) := match cs3 with
        | 'e' :: r => parseJsonNum.parseExpTail r
        | 'E' :: r => parseJsonNum.parseExpTail r
        | _ => some (0, cs3)
      match expStep with
      | none => none
      | some (e, cs4) =>
        if cs4.isEmpty then
          let base := decimalValue intDs fracDs
          let v := if 0 ≤ e then qMul base (pow10 e.toNat) else qDiv base (pow10 (-e).toNat)
          some (if neg then qNeg v else v)
        else none

/-- ToNumber on a JSON value: numbers pass through, null and false are 0,
true is 1, strings go through StringToNumber, arrays through their join
string, objects are NaN; none models NaN. -/
def toNumberJS : Json → Option ℚ
  | Json.jnull => some 0
  | Json.jbool b => some (cond b 1 0)
  | Json.jnum q => some q
  | Json.jstr s => stringToNumberJS s
  | Json.jarr l => stringToNumberJS (String.intercalate "," (jsArrStrList l))
  | Json.jobj _ => none

/-- Lookup of the scores entry for a 1-based chunk id, translated from the
find call of the source: elements are scanned in order; reading chunk_id
from a null element throws a TypeError (modelled as the error case), any
other element matches when its chunk_id field strictly equals the id. -/
def findScoreEntry (target : ℚ) : List Json → Except Unit (Option Json)
  | [] => Except.ok none
  | s :: rest =>
    match s with
    | Json.jnull => Except.error ()
    | _ =>
      match getField s "chunk_id" with
      | some (Json.jnum q) =>
        if q = target then Except.ok (some s) else findScoreEntry target rest
      | _ => findScoreEntry target rest

/-- Raw score carried into the ranked chunk: the pattern score-or-zero
keeps any truthy value exactly as parsed (a string stays a string) and
collapses falsy values, including a missing entry or field, to the
number 0. -/
def rawScoreOrZero (entry : Option Json) : Json :=
  match entry with
  | some e =>
    match getField e "score" with
    | some v => if jsFalsy v then Json.jnum 0 else v
    | none => Json.jnum 0
  | none => Json.jnum 0

/-- Raw reason carried into the ranked chunk: any truthy value is kept as
parsed, falsy or missing values become the default string. -/
def rawReasonOrDefault (entry : Option Json) : Json :=
  match entry with
  | some e =>
    match getField e "reason" with
    | some v => if jsFalsy v then Json.jstr "No score provided" else v
    | none => Json.jstr "No score provided"
  | none => Json.jstr "No score provided"

/-- Build the ranked list chunk by chunk, translated from the map over
chunks of the source: each lookup can throw on a null scores entry, and a
throw anywhere aborts the whole construction. -/
def buildRanked (scores : List Json) :
    List (Nat × HybridSearchResult) → Except Unit (List RankedChunk)
  | [] => Except.ok []
  | p :: rest =>
    match findScoreEntry ((p.1 + 1 : Nat) : ℚ) scores with
    | Except.error e => Except.error e
    | Except.ok entry =>
      match buildRanked scores rest with
      | Except.error e => Except.error e
      | Except.ok tail =>
        Except.ok ({ chunk := p.2, relevance_score := rawScoreOrZero entry,
                     relevance_reason := rawReasonOrDefault entry } :: tail)

/-- Numeric sort key of a ranked chunk: ToNumber of its raw score, none
for NaN. -/
def scoreKey (r : RankedChunk) : Option ℚ := toNumberJS r.relevance_score

/-- Sort precedence of the descending comparator b minus a: when both
keys are numbers the larger comes first; a NaN difference is treated as
zero by SortCompare, a tie. With a NaN key present the comparator is not
consistent and the language specification leaves the order
implementation-defined; the model fixes it as the stable merge sort with
NaN tying against everything. -/
def scoreLe (a b : RankedChunk) : Bool :=
  match scoreKey a, scoreKey b with
  | some x, some y => y ≤ x
  | _, _ => true

/-- Relevance floor test of the source filter: the coerced score must be
a number at least 4; a NaN coercion fails the comparison. -/
def scoreAtLeast4 (r : RankedChunk) : Bool :=
  match scoreKey r with
  | some q => 4 ≤ q
  | none => false

/-- LLM fallback re-ranking applied to a generated response text,
translated from the body of llmRerank after the LLM call: clean the text,
parse it, fall back on parse failure or a malformed structure; score
every chunk from its entry, where a null scores entry throws and degrades
to the catch fallback of the source; otherwise sort stably by descending
coerced score, filter out coerced scores below 4 unless that empties the
list, and take the top K. -/
def llmRerankOn (chunks : List HybridSearchResult) (topK : Nat) (llmText : String) :
    List RankedChunk :=
  let cleaned := cleanLlmText llmText
  match jsonParse cleaned with
  | none => fallbackRanked chunks topK "Fallback: JSON parse failed"
  | some result =>
    match getField result "scores" with
    | some (Json.jarr scores) =>
      match buildRanked scores chunks.enum with
      | Except.error _ => fallbackRanked chunks topK "Fallback: re-ranking failed"
      | Except.ok rankedRaw =>
        let ranked := rankedRaw.mergeSort scoreLe
        let filtered := ranked.filter scoreAtLeast4
        let candidates := if 0 < filtered.length then filtered else ranked
        candidates.take topK
    | _ => fallbackRanked chunks topK "Fallback: invalid response structure"

/-! ## Document intelligence (document-intelligence.ts) -/

/-- Detected document type. -/
inductive DocumentType where
  | ASTM | API | NACE | ISO | MTR | DATASHEET | UNKNOWN
  deriving DecidableEq, Repr

/-- Document metadata driving structured chunking. -/
structure DocumentMetadata where
  type : DocumentType
  standard : Option String
  revision : Option String
  materials : List String
  confidence : ℚ
  deriving DecidableEq, Repr

/-- Structured chunk type tag. -/
inductive ChunkType where
  | table | narrative | heading | mixed
  deriving DecidableEq, Repr

/-- Metadata attached to a structured chunk. -/
structure ChunkMeta where
  table_title : Option String
  sectionTag : Option String
  document_type : Option DocumentType
  standard : Option String
  deriving DecidableEq, Repr

/-- Structured chunk with type information. -/
structure StructuredChunk where
  content : String
  page_number : Nat
  type : ChunkType
  meta : ChunkMeta
  deriving DecidableEq, Repr

/-- Character class of the caption pattern after the table number: colon,
whitespace, em dash, en dash or hyphen. -/
def captionClassChar (c : Char) : Bool :=
  c = ':' || jsWs c || c = '—' || c = '–' || c = '-'

/-- Match the table caption pattern at the head of the input: the word
table (case-insensitively, as the i flag makes the two alternatives of the
source pattern equivalent), whitespace, digits, at least one separator
character, then the rest of the line. Returns the match length. -/
def captionMatchAt (cs : List Char) : Option Nat :=
  if listStartsWithCI "table".data cs then
    let r1 := cs.drop 5
    let ws := r1.takeWhile jsWs
    if ws.isEmpty then none
    else
      let r2 := r1.drop ws.length
      let ds := r2.takeWhile jsDigit
      if ds.isEmpty then none
      else
        let r3 := r2.drop ds.length
        let cls := r3.takeWhile captionClassChar
        if cls.isEmpty then none
        else
          let r4 := r3.drop cls.length
          let rest := r4.takeWhile (fun c => c ≠ '\n')
          some (5 + ws.length + ds.length + cls.length + rest.length)
  else none

/-- Find the leftmost caption match starting at a line start at or after
the lastIndex, returning its start position and length. -/
def findCaptionSpan (st : Nat) (cs : List Char) : Option (Nat × Nat) :=
  go 0 none cs
where
  go (p : Nat) (prev : Option Char) : List Char → Option (Nat × Nat)
    | [] => none
    | c :: rest =>
      if st ≤ p && (prev = none || prev = some '\n') then
        match captionMatchAt (c :: rest) with
        | some k => some (p, k)
        | none => go (p + 1) (some c) rest
      else go (p + 1) (some c) rest

/-- Stateful test of the global caption regex: search from the lastIndex;
a hit advances the lastIndex past the match, a miss resets it to 0. -/
def tableStartTest (st : Nat) (cs : List Char) : Bool × Nat :=
  match findCaptionSpan st cs with
  | some (p, k) => (true, p + k)
  | none => (false, 0)

/-- Column-header keywords of the stateless header pattern. -/
def columnHeaderWords : List String :=
  ["Grade", "UNS", "Tensile", "Yield", "Elongation", "Hardness",
   "Composition", "Chemical", "Mechanical"]

/-- Case-insensitive test for any column-header keyword. -/
def columnHeadersTest (cs : List Char) : Bool :=
  columnHeaderWords.any (fun k => containsSubCI k.data cs)

/-- Cell character class of the data-row pattern: word characters, dot,
slash, dash. -/
def dataRowCellChar (c : Char) : Bool :=
  jsWordChar c || c = '.' || c = '/' || c = '-'

/-- Column separator of the data-row pattern: a maximal whitespace run of
length at least two, or a single tab. -/
def dataRowSep (l : List Char) : Option Nat :=
  let ws := l.takeWhile jsWs
  if 2 ≤ ws.length then some ws.length
  else match l with
    | '\t' :: _ => some 1
    | _ => none

/-- Test a line against the data-row pattern: three cells separated by
wide gaps or tabs, anchored at the start of the line. -/
def dataRowTest (l : List Char) : Bool :=
  let c1 := l.takeWhile dataRowCellChar
  if c1.isEmpty then false
  else match dataRowSep (l.drop c1.length) with
    | none => false
    | some s1 =>
      let r2 := l.drop (c1.length + s1)
      let c2 := r2.takeWhile dataRowCellChar
      if c2.isEmpty then false
      else match dataRowSep (r2.drop c2.length) with
        | none => false
        | some s2 =>
          let c3 := (r2.drop (c2.length + s2)).takeWhile dataRowCellChar
          !c3.isEmpty

/-- Whitespace run of length at least three somewhere in the line. -/
def hasWsRun3 : List Char → Bool
  | a :: b :: c :: rest => (jsWs a && jsWs b && jsWs c) || hasWsRun3 (b :: c :: rest)
  | _ => false

/-- Stateful table likelihood test, translated from isLikelyTable: the
global caption regex (whose lastIndex is the threaded state), then the
header plus data-row density test, then the tab-or-wide-gap density test.
Ratios are exact rationals where the source compares against the binary
doubles 0.5 and 0.6. -/
def isLikelyTable (st : Nat) (cs : List Char) : Bool × Nat :=
  let (hit, st1) := tableStartTest st cs
  if hit then (true, st1)
  else
    let hasHeaders := columnHeadersTest cs
    let lines := (cs.splitOn '\n').filter (fun l => !(trimChars l).isEmpty)
    let structuredLines := lines.filter dataRowTest
    if hasHeaders && qDiv (lines.length : ℚ) 2 < (structuredLines.length : ℚ) then (true, st1)
    else
      let tabLines := lines.filter (fun l => l.contains '\t' || hasWsRun3 l)
      (qMul (lines.length : ℚ) (Rat.divInt 6 10) < (tabLines.length : ℚ), st1)

/-- Text section classified as table or narrative. -/
structure TextSection where
  content : List Char
  isTable : Bool
  deriving DecidableEq, Repr

/-- Accumulator of the section splitter: finished sections, the narrative
and table accumulators, and the caption regex state. -/
structure SectionAcc where
  secs : List TextSection
  narr : List Char
  tab : List Char
  st : Nat
  deriving Repr

/-- One block step of the section splitter: classify the block, flush the
opposite accumulator if it has non-whitespace content, and append the
block to its own accumulator joined by a blank line. -/
def sectionStep (acc : SectionAcc) (block : List Char) : SectionAcc :=
  let (isTab, st1) := isLikelyTable acc.st block
  if isTab then
    let flushNarr := !(trimChars acc.narr).isEmpty
    { secs := if flushNarr then acc.secs ++ [⟨trimChars acc.narr, false⟩] else acc.secs
      narr := if flushNarr then [] else acc.narr
      tab := if acc.tab.isEmpty then block else acc.tab ++ '\n' :: '\n' :: block
      st := st1 }
  else
    let flushTab := !(trimChars acc.tab).isEmpty
    { secs := if flushTab then acc.secs ++ [⟨trimChars acc.tab, true⟩] else acc.secs
      tab := if flushTab then [] else acc.tab
      narr := if acc.narr.isEmpty then block else acc.narr ++ '\n' :: '\n' :: block
      st := st1 }

/-- Split a page into table and narrative sections, translated from
splitIntoSections: split on blank lines, classify blockwise accumulating
runs of the same class, and flush the remainders. -/
def splitIntoSections (st : Nat) (text : List Char) : List TextSection × Nat :=
  let a := (splitBlankRuns text).foldl sectionStep ⟨[], [], [], st⟩
  (a.secs ++
    (if !(trimChars a.narr).isEmpty then [(⟨trimChars a.narr, false⟩ : TextSection)] else []) ++
    (if !(trimChars a.tab).isEmpty then [(⟨trimChars a.tab, true⟩ : TextSection)] else []),
   a.st)

/-- Sliding-window loop of chunkNarrativeText: windows of the given size
starting at multiples of the step while the start is inside the text,
each window trimmed and dropped when empty. A step of zero (overlap at
least the size) makes the source loop diverge and is modelled as the
empty result; it cannot arise with the default configuration. -/
def chunkNarrGo (cs : List Char) (size step : Nat) (start : Nat) : List (List Char) :=
  if _h : start < cs.length ∧ 0 < step then
    let chunk := trimChars ((cs.drop start).take size)
    let rest := chunkNarrGo cs size step (start + step)
    if chunk.isEmpty then rest else chunk :: rest
  else []
termination_by cs.length - start
decreasing_by omega

/-- Chunk narrative text with overlap, translated from chunkNarrativeText:
text within the chunk size becomes a single trimmed chunk (dropped when
empty), longer text goes through the sliding-window loop. -/
def chunkNarrativeText (cs : List Char) (size overlap : Nat) : List (List Char) :=
  if cs.length ≤ size then (if (trimChars cs).isEmpty then [] else [trimChars cs])
  else chunkNarrGo cs size (size - overlap) 0

/-- All caption matches of the text from position 0, as the String match
method collects for a global regex; the fuel bounds the exec loop and the
input length plus one always suffices. -/
def allCaptionsGo (cs : List Char) : Nat → Nat → List (List Char)
  | 0, _ => []
  | fuel + 1, st =>
    match findCaptionSpan st cs with
    | none => []
    | some (p, k) => ((cs.drop p).take k) :: allCaptionsGo cs fuel (p + k)

/-- All caption matches of the text. -/
def allCaptions (cs : List Char) : List (List Char) :=
  allCaptionsGo cs (cs.length + 1) 0

/-- Extract a table title, translated from extractTableTitle called with a
single argument: the String match method on the global caption regex
returns the list of full matches and resets its lastIndex to 0, so the
title is the trimmed second full match when present and non-empty,
otherwise a generic title built from the first digit run of the first
match; no match yields none. -/
def extractTableTitle (cs : List Char) : Option String × Nat :=
  match allCaptions cs with
  | [] => (none, 0)
  | m0 :: restMs =>
    let fallback :=
      match (m0.dropWhile (fun c => !jsDigit c)).takeWhile jsDigit with
      | [] => "Table undefined"
      | ds => "Table " ++ String.mk ds
    let title :=
      match restMs with
      | m1 :: _ => let t := trimChars m1; if t.isEmpty then fallback else String.mk t
      | [] => fallback
    (some title, 0)

/-- Match the page-break pattern at the head of the input: a form feed or
a bracketed PAGE marker with optional whitespace and digits. -/
def matchPageBreakAt : List Char → Option Nat
  | [] => none
  | c :: rest =>
    if c = Char.ofNat 12 then some 1
    else if c = '[' then
      if listStartsWith "PAGE".data rest then
        let r2 := rest.drop 4
        let ws := r2.takeWhile jsWs
        let ds := (r2.drop ws.length).takeWhile jsDigit
        if ds.isEmpty then none
        else match r2.drop (ws.length + ds.length) with
          | ']' :: _ => some (5 + ws.length + ds.length + 1)
          | _ => none
      else none
    else none

/-- Fuelled page splitter loop; fuel equal to the input length always
suffices. -/
def splitPageBreaksGo : Nat → List Char → List (List Char)
  | 0, _ => [[]]
  | _, [] => [[]]
  | fuel + 1, c :: cs =>
    match matchPageBreakAt (c :: cs) with
    | some k => [] :: splitPageBreaksGo fuel (cs.drop (k - 1))
    | none =>
      match splitPageBreaksGo fuel cs with
      | [] => [[c]]
      | t :: ts => (c :: t) :: ts

/-- Split the document on page-break markers. -/
def splitPageBreaks (cs : List Char) : List (List Char) :=
  splitPageBreaksGo cs.length cs

/-- Chunks contributed by one classified section: a table section becomes
exactly one table chunk carrying the whole section content and its
extracted title (which resets the caption regex state); a narrative
section is chunked by the sliding window. -/
def processSection (md : DocumentMetadata) (size overlap : Nat) (pageNumber : Nat)
    (sec : TextSection) (st : Nat) : List StructuredChunk × Nat :=
  if sec.isTable then
    let (title, st1) := extractTableTitle sec.content
    ([{ content := String.mk sec.content
        page_number := pageNumber
        type := ChunkType.table
        meta := { table_title := title, sectionTag := none,
                  document_type := some md.type, standard := md.standard } }], st1)
  else
    ((chunkNarrativeText sec.content size overlap).map (fun tc =>
      { content := String.mk tc
        page_number := pageNumber
        type := ChunkType.narrative
        meta := { table_title := none, sectionTag := none,
                  document_type := some md.type, standard := md.standard } }), st)

/-- Structured chunking with the caption regex state threaded through,
translated from createStructuredChunks: split into pages, split each page
into sections, emit each table section as a single chunk and each
narrative section as sliding-window chunks. -/
def createStructuredChunksSt (st : Nat) (text : List Char) (md : DocumentMetadata)
    (size overlap : Nat) : List StructuredChunk × Nat :=
  let pages := splitPageBreaks text
  pages.enum.foldl
    (fun (acc : List StructuredChunk × Nat) p =>
      let (sections, st1) := splitIntoSections acc.2 p.2
      sections.foldl
        (fun (acc2 : List StructuredChunk × Nat) sec =>
          let (cs, st2) := processSection md size overlap (p.1 + 1) sec acc2.2
          (acc2.1 ++ cs, st2))
        (acc.1, st1))
    ([], st)

/-- Structured chunking entry point with the default options and the
initial regex state of a fresh module. -/
def createStructuredChunks (text : String) (md : DocumentMetadata) : List StructuredChunk :=
  (createStructuredChunksSt 0 text.data md 1000 200).1

/-! ## Document Process API chunking (app/api/documents/process/route.ts) -/

/-- Window loop of the Document Process chunker: emit the window at the
current start, advance by the window end minus the overlap (the clamp of a
negative start in the source is dead code, as the advance is positive
whenever the loop continues), and stop after a window that reaches the end
of the text. An overlap at least the size makes the source loop diverge
and is modelled as the empty result; it cannot arise with the default
configuration. -/
def chunkTextGo (cs : List Char) (size overlap : Nat) (start : Nat) : List (List Char) :=
  if _h : start < cs.length ∧ overlap < size then
    let e := min (start + size) cs.length
    let piece := (cs.drop start).take size
    if e = cs.length then [piece]
    else piece :: chunkTextGo cs size overlap (start + (size - overlap))
  else []
termination_by cs.length - start
decreasing_by omega

/-- Fixed-size chunking with overlap, translated from chunkText of the
document processing route: sliding windows, then discard every fragment
whose trimmed length is at most 50. -/
def chunkText (text : String) (size overlap : Nat) : List String :=
  ((chunkTextGo text.data size overlap 0).filter
    (fun c => 50 < (trimChars c).length)).map String.mk

/-! ## Properties -/

/-- C1: for every verification result and structured response,
applyGuardrails refuses a response with zero total claims whose source
type is documents; otherwise, with failed numerical claims present, it
refuses when more than half of all numerical claims failed and recommends
regeneration otherwise; otherwise it returns at confidence at least 70,
regenerates on [50, 70), and refuses below 50. -/
theorem c1_applyGuardrails_decision (v : VerificationResult) (resp : StructuredResponse) :
    (applyGuardrails v resp).action =
      (if v.stats.total_claims = 0 ∧ resp.source_type = SourceType.documents then
        GuardrailAction.refuse
      else
        let numFails := (v.claims.filter (fun c => !c.verified && 0 < c.claim_numbers.length)).length
        let totalNum := (v.claims.filter (fun c => 0 < c.claim_numbers.length)).length
        if 0 < numFails then
          if qDiv (totalNum : ℚ) 2 < (numFails : ℚ) then GuardrailAction.refuse
          else GuardrailAction.regenerate
        else if 70 ≤ v.confidence then GuardrailAction.returnResponse
        else if 50 ≤ v.confidence then GuardrailAction.regenerate
        else GuardrailAction.refuse) := by
  simp only [applyGuardrails, Bool.and_eq_true, decide_eq_true_eq]
  split_ifs <;> first | rfl | omega

/-- C9: isLikelyTable is stateful through the global caption regex: there
is a text containing a table caption (a non-empty caption match list) on
which a first call answers true while an immediately repeated call with
the lastIndex left by the first answers false. -/
theorem c9_isLikelyTable_stateful :
    ∃ t : String,
      (allCaptions t.data).length ≠ 0 ∧
      (isLikelyTable 0 t.data).1 = true ∧
      (isLikelyTable (isLikelyTable 0 t.data).2 t.data).1 = false :=
  ⟨"Table 3: Data\nhello world", by refine ⟨by decide, by decide, by decide⟩⟩

/-- C10: a structured response with no claims always passes verification
with confidence 100, and when it declares itself document-sourced it is
then refused by the guardrail layer. -/
theorem c10_empty_claims_pass (resp : StructuredResponse) (sources : List SourceChunk)
    (h : resp.claims = []) :
    (verifyClaims resp sources).confidence = 100 ∧
    (verifyClaims resp sources).passed = true ∧
    (resp.source_type = SourceType.documents →
      (applyGuardrails (verifyClaims resp sources) resp).action = GuardrailAction.refuse) := by
  refine ⟨?_, ?_, fun hdoc => ?_⟩
  · simp [verifyClaims, h, jsRound]
    decide
  · simp [verifyClaims, h, jsRound]
    decide
  · simp [verifyClaims, h, applyGuardrails, hdoc]

/-- Concrete response with no claims used to witness C10. -/
def respNoClaims : StructuredResponse :=
  { answer := "answer", claims := [], missing_info := none,
    source_type := SourceType.documents }

/-- Witness for C10 at a concrete empty-claims response. -/
theorem c10_empty_claims_pass_witness :
    respNoClaims.claims = [] ∧
    (verifyClaims respNoClaims []).confidence = 100 ∧
    (verifyClaims respNoClaims []).passed = true ∧
    (applyGuardrails (verifyClaims respNoClaims []) respNoClaims).action =
      GuardrailAction.refuse :=
  ⟨rfl, (c10_empty_claims_pass respNoClaims [] rfl).1,
    (c10_empty_claims_pass respNoClaims [] rfl).2.1,
    (c10_empty_claims_pass respNoClaims [] rfl).2.2 rfl⟩

/-! ## Bridge lemmas between the reducible rational forms and the field
operations of ℚ -/

/-- Denominator of a rational is nonzero as a rational. -/
theorem qden_ne (a : ℚ) : ((a.den : ℚ)) ≠ 0 := by
  exact_mod_cast a.den_nz

/-- Rat.floor is the floor of the order structure. -/
theorem ratFloor_eq (x : ℚ) : x.floor = ⌊x⌋ :=
  (Rat.floor_def' x).trans Rat.floor_def.symm

/-- qAdd agrees with rational addition. -/
theorem qAdd_eq (a b : ℚ) : qAdd a b = a + b := by
  have ha := qden_ne a
  have hb := qden_ne b
  rw [qAdd, Rat.divInt_eq_div]
  push_cast
  conv_rhs => rw [← Rat.num_div_den a, ← Rat.num_div_den b]
  field_simp

/-- qNeg agrees with rational negation. -/
theorem qNeg_eq (a : ℚ) : qNeg a = -a := by
  rw [qNeg, Rat.divInt_eq_div]
  push_cast
  rw [neg_div, Rat.num_div_den]

/-- qSub agrees with rational subtraction. -/
theorem qSub_eq (a b : ℚ) : qSub a b = a - b := by
  have ha := qden_ne a
  have hb := qden_ne b
  rw [qSub, Rat.divInt_eq_div]
  push_cast
  conv_rhs => rw [← Rat.num_div_den a, ← Rat.num_div_den b]
  field_simp
  ring

/-- qMul agrees with rational multiplication. -/
theorem qMul_eq (a b : ℚ) : qMul a b = a * b := by
  rw [qMul, Rat.divInt_eq_div]
  push_cast
  conv_rhs => rw [← Rat.num_div_den a, ← Rat.num_div_den b]
  rw [div_mul_div_comm]

/-- qDiv agrees with rational division. -/
theorem qDiv_eq (a b : ℚ) : qDiv a b = a / b := by
  by_cases hb : b = 0
  · subst hb
    simp [qDiv, Rat.divInt_eq_div]
  · have ha := qden_ne a
    have hbd := qden_ne b
    have hbn : (b.num : ℚ) ≠ 0 := by
      exact_mod_cast Rat.num_ne_zero.mpr hb
    rw [qDiv, Rat.divInt_eq_div]
    push_cast
    conv_rhs => rw [← Rat.num_div_den a, ← Rat.num_div_den b]
    field_simp

/-- qAbs agrees with the rational absolute value. -/
theorem qAbs_eq (a : ℚ) : qAbs a = |a| := by
  rw [qAbs]
  by_cases h : a.num < 0
  · rw [if_pos h, qNeg_eq, abs_of_neg]
    have := (not_iff_not.mpr (Rat.num_nonneg (q := a))).mp
    exact lt_of_not_le (fun hle => absurd ((Rat.num_nonneg (q := a)).mpr hle) (not_le.mpr h))
  · rw [if_neg h, abs_of_nonneg]
    exact (Rat.num_nonneg (q := a)).mp (not_lt.mp h)

/-- jsRound is floor of the half-shifted argument. -/
theorem jsRound_eq (q : ℚ) : jsRound q = ⌊q + 1 / 2⌋ := by
  rw [jsRound, ratFloor_eq, qAdd_eq]
  norm_num [Rat.divInt_eq_div]

/-- C4 counterexample: on the query 5L the API pattern matches (the code
is extracted) yet boostExactMatch is false, because the source computes
hasExactCodes without the API matches; the claim as stated predicts true. -/
theorem c4_counterexample :
    (preprocessQuery "5L").extractedCodes.api = some "5L" ∧
    (preprocessQuery "5L").boostExactMatch = false := by
  exact ⟨by decide, by decide⟩

/-- C4 amended: boostExactMatch is true exactly when a UNS, ASTM, grade or
NACE code matched or a property keyword occurs case-insensitively (API
matches do not contribute), and getSearchWeights gives 0.6/0.4 with two or
more extracted code categories, 0.5/0.5 with exactly one category or the
boost flag, and 0.3/0.7 otherwise. -/
theorem c4_boost_and_weights (q : String) :
    ((preprocessQuery q).boostExactMatch =
      ((preprocessQuery q).extractedCodes.uns.isSome ||
       (preprocessQuery q).extractedCodes.astm.isSome ||
       (preprocessQuery q).extractedCodes.grade.isSome ||
       (preprocessQuery q).extractedCodes.nace.isSome ||
       propertyKeywords.any (fun k => containsSub (upperChars k.data)
         (upperChars (trimChars q.data))))) ∧
    (getSearchWeights (preprocessQuery q) =
      (let codeCount := [(preprocessQuery q).extractedCodes.uns,
         (preprocessQuery q).extractedCodes.astm,
         (preprocessQuery q).extractedCodes.api,
         (preprocessQuery q).extractedCodes.grade,
         (preprocessQuery q).extractedCodes.nace].countP Option.isSome
       if 2 ≤ codeCount then
         { bm25Weight := Rat.divInt 6 10, vectorWeight := Rat.divInt 4 10 }
       else if codeCount = 1 ∨ (preprocessQuery q).boostExactMatch then
         { bm25Weight := Rat.divInt 5 10, vectorWeight := Rat.divInt 5 10 }
       else
         { bm25Weight := Rat.divInt 3 10, vectorWeight := Rat.divInt 7 10 })) := by
  constructor
  · simp only [preprocessQuery, Option.isSome_map]
    cases firstMatch matchUNSAt (trimChars q.data) <;>
      cases firstMatch matchASTMAt (trimChars q.data) <;>
        cases firstMatch matchGradeAt (trimChars q.data) <;>
          simp [Option.orElse]
  · simp only [getSearchWeights]
    split_ifs <;> simp_all

/-- C3 counterexample: on needle abc and haystack abd the Levenshtein
distance is 1 and the needle length 3, so the formula of the claim gives
200/3, yet fuzzyMatch returns the rounded 67; the unrounded formula value
differs from every integer return value. -/
theorem c3_counterexample :
    fuzzyMatch "abc" "abd" = 67 ∧
    levenshteinDistance (normalizeText "abc".data) (normalizeText "abd".data) = 1 ∧
    (normalizeText "abc".data).length = 3 ∧
    max (0 : ℚ) (100 - (1 : ℚ) / 3 * 100) ≠ ((67 : ℤ) : ℚ) := by
  refine ⟨by decide, by decide, by decide, by norm_num⟩

/-- C3 amended: fuzzyMatch normalizes both strings, returns 100 on
containment, for needles longer than 50 characters returns the rounded
percentage of deduplicated needle words longer than 2 characters present
among the haystack words, and otherwise returns the rounded value of
100 minus (distance over needle length) times 100, floored at 0, with the
Levenshtein inputs capped at 200 characters. -/
theorem c3_fuzzyMatch_amended (needle haystack : String) :
    fuzzyMatch needle haystack =
      (let nn := normalizeText needle.data
       let nh := normalizeText haystack.data
       if containsSub nn nh then 100
       else if 50 < nn.length then
         (let nw := ((jsSplitWs nn).filter (fun w => 2 < w.length)).dedup
          jsRound (((nw.filter (fun w => (jsSplitWs nh).contains w)).length : ℚ) /
            (nw.length : ℚ) * 100))
       else
         max 0 (jsRound (100 - (levenshteinDistance nn nh : ℚ) / (nn.length : ℚ) * 100))) := by
  simp only [fuzzyMatch, wordBasedMatch, qMul_eq, qDiv_eq, qSub_eq]

/-- Claim with a dangling source reference used against C2. -/
def c2claim : Claim :=
  { claim := "alpha beta", source_ref := "[2]", exact_quote := "",
    confidence := ConfidenceLevel.high, numerical_values := none }

/-- Response holding only the dangling claim. -/
def c2resp : StructuredResponse :=
  { answer := "ans", claims := [c2claim], missing_info := none,
    source_type := SourceType.documents }

/-- Single source whose ref does not match the claim. -/
def c2src : SourceChunk :=
  { ref := "[1]", content := "sixty five", document := none, page := none }

/-- C2 counterexample: a claim with an empty quote and no extracted
numbers, whose source reference resolves to no source, is marked
unverified by the code although the stated criterion (quote empty, no
numbers) classifies it as verified. -/
theorem c2_counterexample :
    c2claim.exact_quote = "" ∧
    extractNumbersFromText c2claim.claim = [] ∧
    (verifyClaims c2resp [c2src]).claims.map (fun r => r.verified) = [false] := by
  refine ⟨rfl, by decide, by decide⟩

/-- C2 amended: a claim is verified exactly when its source reference
resolves and the stated quote and number criteria hold; the returned
confidence is the weighted 60/40 combination of the two rates rounded
half up; passed compares the unrounded combination against 70 and
requires zero failed claims containing numbers. -/
theorem c2_verification_amended :
    (∀ (c : Claim) (m : List (String × SourceChunk)),
      (verifyClaimAgainstSource c m).verified =
        (match m.lookup c.source_ref with
         | none => false
         | some src =>
           (decide (60 ≤ fuzzyMatch c.exact_quote src.content) ||
            decide (c.exact_quote.length = 0)) &&
           ((extractNumbersFromText c.claim).isEmpty ||
            verifyNumbers (extractNumbersFromText c.claim)
              (extractNumbersFromText src.content)))) ∧
    (∀ (ns ss : List ℚ), verifyNumbers ns ss =
      ns.all (fun n => ss.any (fun s => decide (|n - s| < 1 / 100)))) ∧
    (∀ (resp : StructuredResponse) (sources : List SourceChunk),
      (verifyClaims resp sources).claims =
        resp.claims.map (fun c => verifyClaimAgainstSource c (buildSourceMap sources))) ∧
    (∀ (resp : StructuredResponse) (sources : List SourceChunk),
      (verifyClaims resp sources).stats.verification_rate =
        (if 0 < (verifyClaims resp sources).stats.total_claims then
          ((verifyClaims resp sources).stats.verified_claims : ℚ) /
            ((verifyClaims resp sources).stats.total_claims : ℚ) * 100
        else 100) ∧
      (verifyClaims resp sources).confidence =
        jsRound ((verifyClaims resp sources).stats.verification_rate * (6 / 10) +
          (if 0 < (verifyClaims resp sources).stats.numbers_checked then
            ((verifyClaims resp sources).stats.numbers_verified : ℚ) /
              ((verifyClaims resp sources).stats.numbers_checked : ℚ) * 100
          else 100) * (4 / 10)) ∧
      (verifyClaims resp sources).passed =
        (decide (70 ≤ (verifyClaims resp sources).stats.verification_rate * (6 / 10) +
          (if 0 < (verifyClaims resp sources).stats.numbers_checked then
            ((verifyClaims resp sources).stats.numbers_verified : ℚ) /
              ((verifyClaims resp sources).stats.numbers_checked : ℚ) * 100
          else 100) * (4 / 10)) &&
         decide (((verifyClaims resp sources).claims.filter
           (fun r => 0 < r.claim_numbers.length && !r.verified)).length = 0))) := by
  refine ⟨fun c m => ?_, fun ns ss => ?_, fun resp sources => rfl, fun resp sources => ?_⟩
  · unfold verifyClaimAgainstSource
    cases h : m.lookup c.source_ref with
    | none => simp
    | some src =>
      simp only
      by_cases hq : c.exact_quote = ""
      · have h0 : c.exact_quote.length = 0 := by rw [hq]; rfl
        simp [hq, h0, String.isEmpty_iff]
      · have hne : c.exact_quote.isEmpty = false := by
          rw [Bool.eq_false_iff]
          intro hemp
          exact hq ((String.isEmpty_iff _).mp hemp)
        have h0 : ¬(c.exact_quote.length = 0) := by
          intro hl
          apply hq
          have : c.exact_quote.data.length = 0 := hl
          cases hd : c.exact_quote.data with
          | nil => exact String.ext hd
          | cons a l => rw [hd] at this; simp at this
        simp [hne, h0]
  · simp only [verifyNumbers, qAbs_eq, qSub_eq, Rat.divInt_eq_div]
    push_cast
    rfl
  · refine ⟨?_, ?_, ?_⟩
    · simp only [verifyClaims, qMul_eq, qDiv_eq]
    · simp only [verifyClaims, qMul_eq, qDiv_eq, qAdd_eq, Rat.divInt_eq_div]
      push_cast
      rfl
    · simp only [verifyClaims, qMul_eq, qDiv_eq, qAdd_eq, Rat.divInt_eq_div, List.filter_filter]
      push_cast
      rfl

/-- C6: whenever no brace block exists, or the brace block fails JSON
parsing, or the parsed value has no string answer field,
parseStructuredResponse reports parse failure and derives its claims by
splitting the raw text on blank lines and emitting, per paragraph with a
citation, one low-confidence quoteless claim from the first 200 characters
of the trimmed paragraph with citation markers removed. -/
theorem c6_fallback_parsing (raw : String)
    (h : findJsonBlock raw = none ∨
         (∃ b, findJsonBlock raw = some b ∧ jsonParse b = none) ∨
         (∃ b j, findJsonBlock raw = some b ∧ jsonParse b = some j ∧
            ∀ s : String, getField j "answer" ≠ some (Json.jstr s))) :
    (parseStructuredResponse raw).parseSuccess = false ∧
    (parseStructuredResponse raw).structured.claims =
      (splitBlankRuns raw.data).filterMap (fun para =>
        (findCitation para).map (fun cite =>
          { claim := String.mk ((trimChars (removeCitations para)).take 200)
            source_ref := cite
            exact_quote := ""
            confidence := ConfidenceLevel.low
            numerical_values := none })) := by
  rcases h with h | ⟨b, hb, hp⟩ | ⟨b, j, hb, hp, ha⟩
  · simp [parseStructuredResponse, h, createFallbackResponse]
  · simp [parseStructuredResponse, hb, hp, createFallbackResponse]
  · simp only [parseStructuredResponse, hb, hp]
    cases hg : getField j "answer" with
    | none => simp [createFallbackResponse]
    | some v =>
      cases v with
      | jstr s => exact absurd hg (ha s)
      | jnull => simp [createFallbackResponse]
      | jbool c => simp [createFallbackResponse]
      | jnum q => simp [createFallbackResponse]
      | jarr l => simp [createFallbackResponse]
      | jobj fs => simp [createFallbackResponse]

/-- Concrete raw response without a JSON object used to witness C6. -/
def c6raw : String := "Alpha finding [1]\n\nBeta finding [2]"

/-- Witness for C6 at a concrete two-paragraph raw response. -/
theorem c6_fallback_parsing_witness :
    findJsonBlock c6raw = none ∧
    ((parseStructuredResponse c6raw).parseSuccess = false ∧
     (parseStructuredResponse c6raw).structured.claims =
       (splitBlankRuns c6raw.data).filterMap (fun para =>
         (findCitation para).map (fun cite =>
           { claim := String.mk ((trimChars (removeCitations para)).take 200)
             source_ref := cite
             exact_quote := ""
             confidence := ConfidenceLevel.low
             numerical_values := none }))) :=
  ⟨rfl, c6_fallback_parsing c6raw (Or.inl rfl)⟩

/-- C7 amended: rerankChunks returns every candidate with score 8
independently of the scoring path when the candidates number at most
topK; the LLM path returns the first topK in search order with score 7 on
parse failure or a malformed structure, and likewise, with a re-ranking
failed reason, when a null scores entry makes the score lookup throw; a
successful parse whose lookups complete scores every chunk from its entry
(falsy scores collapsing to the number 0, other values kept raw), sorts
stably by descending coerced score, drops coerced scores below 4 unless
that would drop everything, and takes topK. -/
theorem c7_rerank_paths :
    (∀ (chunks : List HybridSearchResult) (topK : Nat)
       (f : List HybridSearchResult → Nat → List RankedChunk),
      chunks.length ≤ topK →
      rerankChunks chunks topK f = chunks.map (fun chunk =>
        { chunk := chunk, relevance_score := Json.jnum 8,
          relevance_reason := Json.jstr "Only candidate from search" })) ∧
    (∀ (chunks : List HybridSearchResult) (topK : Nat) (text : String),
      jsonParse (cleanLlmText text) = none →
      llmRerankOn chunks topK text = (chunks.take topK).map (fun chunk =>
        { chunk := chunk, relevance_score := Json.jnum 7,
          relevance_reason := Json.jstr "Fallback: JSON parse failed" })) ∧
    (∀ (chunks : List HybridSearchResult) (topK : Nat) (text : String) (j : Json),
      jsonParse (cleanLlmText text) = some j →
      (∀ l, getField j "scores" ≠ some (Json.jarr l)) →
      llmRerankOn chunks topK text = (chunks.take topK).map (fun chunk =>
        { chunk := chunk, relevance_score := Json.jnum 7,
          relevance_reason := Json.jstr "Fallback: invalid response structure" })) ∧
    (∀ (chunks : List HybridSearchResult) (topK : Nat) (text : String) (j : Json)
       (scores : List Json),
      jsonParse (cleanLlmText text) = some j →
      getField j "scores" = some (Json.jarr scores) →
      buildRanked scores chunks.enum = Except.error () →
      llmRerankOn chunks topK text = (chunks.take topK).map (fun chunk =>
        { chunk := chunk, relevance_score := Json.jnum 7,
          relevance_reason := Json.jstr "Fallback: re-ranking failed" })) ∧
    (∀ (chunks : List HybridSearchResult) (topK : Nat) (text : String) (j : Json)
       (scores : List Json) (rankedRaw : List RankedChunk),
      jsonParse (cleanLlmText text) = some j →
      getField j "scores" = some (Json.jarr scores) →
      buildRanked scores chunks.enum = Except.ok rankedRaw →
      llmRerankOn chunks topK text =
        (let sorted := rankedRaw.mergeSort scoreLe
         let filtered := sorted.filter scoreAtLeast4
         (if filtered.isEmpty then sorted else filtered).take topK)) := by
  refine ⟨fun chunks topK f hle => ?_, fun chunks topK text hp => ?_,
    fun chunks topK text j hp hs => ?_, fun chunks topK text j scores hp hs herr => ?_,
    fun chunks topK text j scores rankedRaw hp hs hok => ?_⟩
  · simp [rerankChunks, hle]
  · simp [llmRerankOn, hp, fallbackRanked]
  · simp only [llmRerankOn, hp]
    cases hg : getField j "scores" with
    | none => simp [fallbackRanked]
    | some v =>
      cases v with
      | jarr l => exact absurd hg (hs l)
      | jnull => simp [fallbackRanked]
      | jbool c => simp [fallbackRanked]
      | jnum q => simp [fallbackRanked]
      | jstr s => simp [fallbackRanked]
      | jobj fs => simp [fallbackRanked]
  · simp [llmRerankOn, hp, hs, herr, fallbackRanked]
  · simp only [llmRerankOn, hp, hs, hok]
    cases hf : (rankedRaw.mergeSort scoreLe).filter scoreAtLeast4 with
    | nil => simp [hf]
    | cons x xs => simp [hf]

/-- Concrete candidate chunks used to witness C7. -/
def c7chunk1 : HybridSearchResult :=
  { id := 1, document_id := 1, content := "yield strength 65 ksi", page_number := 1,
    similarity := 1, bm25_score := 1, vector_score := 1, combined_score := 1 }

/-- Second concrete candidate chunk used to witness C7. -/
def c7chunk2 : HybridSearchResult :=
  { id := 2, document_id := 1, content := "tensile strength 90 ksi", page_number := 2,
    similarity := 1, bm25_score := 1, vector_score := 1, combined_score := 1 }

/-- Witness for C7: two candidates with topK five are returned unchanged
with score 8 whatever the scoring path would do. -/
theorem c7_rerank_paths_witness :
    ([c7chunk1, c7chunk2].length ≤ 5) ∧
    rerankChunks [c7chunk1, c7chunk2] 5 (fun _ _ => []) =
      [c7chunk1, c7chunk2].map (fun chunk =>
        { chunk := chunk, relevance_score := Json.jnum 8,
          relevance_reason := Json.jstr "Only candidate from search" }) :=
  ⟨by decide, c7_rerank_paths.1 [c7chunk1, c7chunk2] 5 (fun _ _ => []) (by decide)⟩

/-- LLM response text whose JSON parses successfully into an object with
a well-typed scores array containing a single null entry. -/
def c7badText : String := "\x7b\"scores\": [null]\x7d"

/-- C7 counterexample: on a response that parses successfully with a
scores array (so neither a JSON parse failure nor the malformed-structure
check applies), a null scores entry makes the lookup throw, and the
result is the degraded original-order score-7 list with the re-ranking
failed reason, not the sorted-and-filtered list the claim describes for a
successful parse. -/
theorem c7_counterexample :
    jsonParse (cleanLlmText c7badText) =
      some (Json.jobj [("scores", Json.jarr [Json.jnull])]) ∧
    buildRanked [Json.jnull] [c7chunk1, c7chunk2].enum = Except.error () ∧
    llmRerankOn [c7chunk1, c7chunk2] 1 c7badText =
      [{ chunk := c7chunk1, relevance_score := Json.jnum 7,
         relevance_reason := Json.jstr "Fallback: re-ranking failed" }] := by
  refine ⟨by rfl, by rfl, by rfl⟩

/-- Number of windows the Document Process chunker emits on a text of the
given length with the default size 1000 and overlap 200. -/
def c8NumWindows (len : Nat) : Nat := if len = 0 then 0 else (len - 201) / 800 + 1

/-- Window number k of the Document Process chunker: 1000 characters
starting at 800 times k. -/
def c8Window (cs : List Char) (k : Nat) : List Char := (cs.drop (800 * k)).take 1000

/-- Window loop of chunkText as an explicit window list: from a reachable
start (start zero on a non-empty text, or a continuation start whose
previous window did not reach the end), the loop emits exactly the windows
at multiples of 800 up to the final partial window. -/
theorem chunkTextGo_eq_range (cs : List Char) (m : Nat)
    (hm : m = 0 ∧ 0 < cs.length ∨ 800 * m + 200 < cs.length) :
    chunkTextGo cs 1000 200 (800 * m) =
      (List.range (c8NumWindows cs.length - m)).map (fun j => c8Window cs (m + j)) := by
  have H : ∀ fuel m, cs.length - 800 * m ≤ fuel →
      (m = 0 ∧ 0 < cs.length ∨ 800 * m + 200 < cs.length) →
      chunkTextGo cs 1000 200 (800 * m) =
        (List.range (c8NumWindows cs.length - m)).map (fun j => c8Window cs (m + j)) := by
    intro fuel
    induction fuel with
    | zero =>
      intro m hf hm
      exfalso
      omega
    | succ n ih =>
      intro m hf hm
      have hlt : 800 * m < cs.length := by omega
      have hnz : cs.length ≠ 0 := by omega
      rw [chunkTextGo, dif_pos ⟨hlt, by omega⟩]
      simp only
      by_cases he : min (800 * m + 1000) cs.length = cs.length
      · rw [if_pos he]
        have hW : c8NumWindows cs.length - m = 1 := by
          simp only [c8NumWindows, if_neg hnz]
          omega
        rw [hW]
        simp [c8Window, List.range_succ]
      · rw [if_neg he]
        have hlen : 800 * m + 1000 < cs.length := by omega
        have hstep : 800 * m + (1000 - 200) = 800 * (m + 1) := by omega
        rw [hstep, ih (m + 1) (by omega) (Or.inr (by omega))]
        have hW : c8NumWindows cs.length - m = (c8NumWindows cs.length - (m + 1)) + 1 := by
          simp only [c8NumWindows, if_neg hnz]
          omega
        have hfun : (fun j => c8Window cs (m + 1 + j)) = (fun j => c8Window cs (m + (j + 1))) :=
          funext fun j => by rw [show m + 1 + j = m + (j + 1) by omega]
        rw [hfun, hW, List.range_succ_eq_map]
        simp only [List.map_cons, List.map_map, Function.comp_def, Nat.add_zero]
        rfl
  exact H cs.length m (by omega) hm

/-- C8 amended: chunkText with the default size and overlap emits exactly
the 1000-character windows starting 800 characters apart (final partial
window included) and keeps exactly those fragments whose trimmed length
strictly exceeds 50; a fragment of trimmed length exactly 50 is
discarded. -/
theorem c8_chunkText_amended (text : String) :
    chunkText text 1000 200 =
      (((List.range (c8NumWindows text.data.length)).map (c8Window text.data)).filter
        (fun c => 50 < (trimChars c).length)).map String.mk := by
  rw [chunkText]
  by_cases h0 : text.data.length = 0
  · rw [chunkTextGo]
    rw [dif_neg (by omega)]
    simp [c8NumWindows, h0]
  · have h := chunkTextGo_eq_range text.data 0 (Or.inl ⟨rfl, by omega⟩)
    rw [show (800 * 0 : Nat) = 0 by omega] at h
    rw [h]
    simp only [Nat.zero_add, Nat.sub_zero]

/-- Fifty-character text used against C8. -/
def c8fifty : String := String.mk (List.replicate 50 'a')

/-- C8 counterexample: the window loop emits the whole 50-character text
as its single fragment, the fragment trims to exactly 50 characters, and
chunkText discards it, although the claim states fragments of trimmed
length 50 are kept. -/
theorem c8_counterexample :
    chunkTextGo c8fifty.data 1000 200 0 = [c8fifty.data] ∧
    (trimChars c8fifty.data).length = 50 ∧
    chunkText c8fifty 1000 200 = [] := by
  have h1 : chunkTextGo c8fifty.data 1000 200 0 = [c8fifty.data] := by
    rw [chunkTextGo]
    rw [dif_pos ⟨by decide, by omega⟩]
    simp only
    rw [if_pos (by decide)]
    decide
  have h2 : (trimChars c8fifty.data).length = 50 := by decide
  refine ⟨h1, h2, ?_⟩
  rw [chunkText, h1]
  simp [h2]

/-- Number of sliding windows of the narrative chunker on text longer
than the chunk size: the start positions are the multiples of 800 below
the length. -/
def c5NumWindows (len : Nat) : Nat := (len + 799) / 800

/-- Window loop of chunkNarrativeText as an explicit window list: from a
start at a multiple of 800 inside the text, the loop emits the trimmed
1000-character windows at the successive multiples of 800, dropping the
empty ones. -/
theorem chunkNarrGo_eq_range (cs : List Char) (m : Nat) (hm : 800 * m < cs.length) :
    chunkNarrGo cs 1000 800 (800 * m) =
      ((List.range (c5NumWindows cs.length - m)).map
        (fun j => trimChars ((cs.drop (800 * (m + j))).take 1000))).filter
        (fun c => !c.isEmpty) := by
  have H : ∀ fuel m, cs.length - 800 * m ≤ fuel → 800 * m < cs.length →
      chunkNarrGo cs 1000 800 (800 * m) =
        ((List.range (c5NumWindows cs.length - m)).map
          (fun j => trimChars ((cs.drop (800 * (m + j))).take 1000))).filter
          (fun c => !c.isEmpty) := by
    intro fuel
    induction fuel with
    | zero =>
      intro m hf hlt
      exfalso
      omega
    | succ n ih =>
      intro m hf hlt
      have hW : c5NumWindows cs.length - m = (c5NumWindows cs.length - (m + 1)) + 1 := by
        simp only [c5NumWindows]
        omega
      have hrec : chunkNarrGo cs 1000 800 (800 * (m + 1)) =
          ((List.range (c5NumWindows cs.length - (m + 1))).map
            (fun j => trimChars ((cs.drop (800 * ((m + 1) + j))).take 1000))).filter
            (fun c => !c.isEmpty) := by
        by_cases hnext : 800 * (m + 1) < cs.length
        · exact ih (m + 1) (by omega) hnext
        · rw [chunkNarrGo, dif_neg (by omega)]
          have hz : c5NumWindows cs.length - (m + 1) = 0 := by
            simp only [c5NumWindows]
            omega
          rw [hz]
          simp
      have hfun : (fun j => trimChars ((cs.drop (800 * ((m + 1) + j))).take 1000)) =
          (fun j => trimChars ((cs.drop (800 * (m + (j + 1)))).take 1000)) :=
        funext fun j => by rw [show (m + 1) + j = m + (j + 1) by omega]
      rw [chunkNarrGo, dif_pos ⟨hlt, by omega⟩]
      simp only
      rw [show 800 * m + 800 = 800 * (m + 1) by omega, hrec, hfun, hW,
        List.range_succ_eq_map]
      simp only [List.map_cons, List.map_map, Function.comp_def, Nat.add_zero,
        List.filter_cons]
      by_cases hemp : (trimChars ((cs.drop (800 * m)).take 1000)).isEmpty
      · simp [hemp]
      · simp [hemp]
  exact H cs.length m (by omega) hm

/-- Sliding-window chunking of one narrative section as the claim states
it: a section within the chunk size is one trimmed chunk (dropped when
empty), a longer section yields the trimmed 1000-character windows
starting every 800 characters, empty fragments dropped. -/
def slidingChunks (cs : List Char) : List (List Char) :=
  if cs.length ≤ 1000 then (if (trimChars cs).isEmpty then [] else [trimChars cs])
  else ((List.range (c5NumWindows cs.length)).map
    (fun k => trimChars ((cs.drop (800 * k)).take 1000))).filter (fun c => !c.isEmpty)

/-- The narrative chunker with default options equals the sliding-window
description. -/
theorem chunkNarrativeText_eq_sliding (cs : List Char) :
    chunkNarrativeText cs 1000 200 = slidingChunks cs := by
  rw [chunkNarrativeText, slidingChunks]
  by_cases hle : cs.length ≤ 1000
  · rw [if_pos hle, if_pos hle]
  · rw [if_neg hle, if_neg hle]
    have h := chunkNarrGo_eq_range cs 0 (by omega)
    rw [show (800 * 0 : Nat) = 0 by omega] at h
    rw [show (1000 - 200 : Nat) = 800 by omega, h]
    simp only [Nat.zero_add, Nat.sub_zero]

/-- The caption regex state is always 0 after a title extraction. -/
theorem extractTableTitle_state (cs : List Char) : (extractTableTitle cs).2 = 0 := by
  rw [extractTableTitle]
  cases allCaptions cs with
  | nil => rfl
  | cons m0 rest => rfl

/-- Chunks one classified section contributes according to the claim: a
table section is exactly one chunk of type table carrying the entire
section content; a narrative section contributes its sliding-window
chunks. -/
def sectionSpecChunks (md : DocumentMetadata) (page : Nat) (sec : TextSection) :
    List StructuredChunk :=
  if sec.isTable then
    [{ content := String.mk sec.content
       page_number := page
       type := ChunkType.table
       meta := { table_title := (extractTableTitle sec.content).1, sectionTag := none,
                 document_type := some md.type, standard := md.standard } }]
  else
    (slidingChunks sec.content).map (fun tc =>
      { content := String.mk tc
        page_number := page
        type := ChunkType.narrative
        meta := { table_title := none, sectionTag := none,
                  document_type := some md.type, standard := md.standard } })

/-- Folding the per-section processor over the sections of one page
appends exactly the per-section chunks of the claim and leaves the
caption regex state at 0 when any table section occurred. -/
theorem sections_foldl (md : DocumentMetadata) (page : Nat) :
    ∀ (sections : List TextSection) (chunks0 : List StructuredChunk) (st : Nat),
    sections.foldl
      (fun (acc2 : List StructuredChunk × Nat) sec =>
        let p := processSection md 1000 200 page sec acc2.2
        (acc2.1 ++ p.1, p.2)) (chunks0, st) =
    (chunks0 ++ sections.bind (sectionSpecChunks md page),
     if sections.any (fun s => s.isTable) then 0 else st) := by
  intro sections
  induction sections with
  | nil => intro chunks0 st; simp
  | cons sec rest ih =>
    intro chunks0 st
    rw [List.foldl_cons]
    by_cases ht : sec.isTable
    · have hproc : processSection md 1000 200 page sec st =
          (sectionSpecChunks md page sec, 0) := by
        rw [processSection, if_pos ht, sectionSpecChunks, if_pos ht]
        have hst := extractTableTitle_state sec.content
        cases hext : extractTableTitle sec.content with
        | mk fst snd =>
          rw [hext] at hst
          simp at hst
          simp [hst]
      simp [hproc, ih, ht, List.append_assoc]
    · have hproc : processSection md 1000 200 page sec st =
          (sectionSpecChunks md page sec, st) := by
        rw [processSection, if_neg ht, sectionSpecChunks, if_neg ht,
          chunkNarrativeText_eq_sliding]
      simp [hproc, ih, ht, List.append_assoc]

/-- Structured chunking as the claim states it: per page, each table
section becomes one whole-content table chunk and each narrative section
its sliding-window chunks, with the caption regex state reset by table
sections. -/
def c5SpecChunks (st : Nat) (text : List Char) (md : DocumentMetadata) :
    List StructuredChunk :=
  ((splitPageBreaks text).enum.foldl
    (fun (acc : List StructuredChunk × Nat) p =>
      let sp := splitIntoSections acc.2 p.2
      (acc.1 ++ sp.1.bind (sectionSpecChunks md (p.1 + 1)),
       if sp.1.any (fun s => s.isTable) then 0 else sp.2))
    ([], st)).1

/-- C5: the structured chunker emits, for every section classified as a
table, exactly one chunk of type table holding the entire section (a
table is never split), and for every narrative section the sliding
windows of the default configuration, page by page. -/
theorem c5_createStructuredChunks (text : String) (md : DocumentMetadata) (st : Nat) :
    (createStructuredChunksSt st text.data md 1000 200).1 = c5SpecChunks st text.data md := by
  rw [createStructuredChunksSt, c5SpecChunks]
  congr 1
  apply List.foldl_ext
  intro acc p _
  have hsp := sections_foldl md (p.1 + 1) (splitIntoSections acc.2 p.2).1 acc.1
    (splitIntoSections acc.2 p.2).2
  cases hs : splitIntoSections acc.2 p.2 with
  | mk sections st1 =>
    rw [hs] at hsp
    simp only at hsp ⊢
    rw [hsp]
